import Mathlib

set_option maxRecDepth 40000

/-!
Verification development for the `import-aseprite` repository
(`src/import-aseprite/vite.ts`).

The TypeScript source is shallowly embedded here:

* a Node `Buffer` is a `List Nat` of bytes (each `< 256` in every real input);
* the fallible Node buffer reads (`readUint16LE`, `readInt16LE`,
  `readUint32LE`), which throw `ERR_OUT_OF_RANGE` when the read would pass
  the end of the buffer, return `Except Err _`;
* plain JS indexing `b[i]`, which yields `undefined` (never throws) out of
  range, is modelled with `List.getD _ _ 0`;
* `Buffer.subarray`, which clamps its bounds (and interprets negative bounds
  as counted from the end), is `jsSub`;
* JS exceptions (`throw new Error(...)`, `TypeError` from property access on
  `undefined`) are `Except.error` values of the corresponding `Err`
  constructor;
* the external collaborators that the source imports — `crc` (fingerprint),
  `pack` (rectangle bin packing) and `zlib.inflateSync` — are parameters of
  the embedded functions, mirroring that they are opaque to this codebase.

Definitions keep the source's names where Lean allows it.
-/

/-- Errors of the embedded decoder / reducer.  Each constructor corresponds to
a concrete way the TypeScript can throw. -/
inductive Err where
  /-- Node `ERR_OUT_OF_RANGE` from `readUintNNLE` past the buffer end;
  carries the offset of the attempted read. -/
  | outOfRange (off : Nat)
  /-- `typed-struct` given a buffer smaller than the struct layout. -/
  | shortStruct
  /-- JS `TypeError` from a property access on `undefined` (e.g. a linked
  cel whose origin frame or origin cel does not exist, or a missing Tags
  chunk). -/
  | typeErr
  /-- `throw new Error("Unsupported cel type")` in `parseCel`. -/
  | unsupportedCel
  /-- `zlib.inflateSync` throwing on bad compressed data. -/
  | inflateErr
  /-- `throw new Error("Wtf")` in `doGeneration`. -/
  | wtf
  /-- `throw new Error("Wtf2")` in `doGeneration`. -/
  | wtf2
  deriving DecidableEq, Repr

/-- Equality of decode results is decidable (used by the concrete
evaluations). -/
instance exceptDecEq {ε α : Type _} [DecidableEq ε] [DecidableEq α] :
    DecidableEq (Except ε α) := fun a b =>
  match a, b with
  | .ok x, .ok y => decidable_of_iff (x = y) (by simp)
  | .error e, .error f => decidable_of_iff (e = f) (by simp)
  | .ok _, .error _ => isFalse (fun h => Except.noConfusion h)
  | .error _, .ok _ => isFalse (fun h => Except.noConfusion h)

/-- JS `b[i]`: `undefined` out of range; we use 0 (no claim depends on the
difference, and the one place the source relies on `undefined` being falsy —
`buffer[ptr + 1] || 256` — treats 0 and `undefined` alike). -/
def readU8 (b : List Nat) (i : Nat) : Nat := b.getD i 0

/-- Node `Buffer.readUint16LE`: two little-endian bytes, throws
`ERR_OUT_OF_RANGE` unless `off + 2 ≤ b.length`. -/
def readUint16LE (b : List Nat) (off : Nat) : Except Err Nat :=
  if off + 2 ≤ b.length then .ok (b.getD off 0 + 256 * b.getD (off + 1) 0)
  else .error (.outOfRange off)

/-- Node `Buffer.readInt16LE`: signed 16-bit little-endian. -/
def readInt16LE (b : List Nat) (off : Nat) : Except Err Int :=
  match readUint16LE b off with
  | .ok v => .ok (if v < 32768 then (v : Int) else (v : Int) - 65536)
  | .error e => .error e

/-- Node `Buffer.readUint32LE`: four little-endian bytes. -/
def readUint32LE (b : List Nat) (off : Nat) : Except Err Nat :=
  if off + 4 ≤ b.length then
    .ok (b.getD off 0 + 256 * b.getD (off + 1) 0 + 65536 * b.getD (off + 2) 0
      + 16777216 * b.getD (off + 3) 0)
  else .error (.outOfRange off)

/-- JS `Buffer.subarray(s, e)`: negative indices count from the end, both
bounds clamp to `[0, length]`, and `e ≤ s` yields the empty buffer. -/
def jsSub (b : List Nat) (s e : Int) : List Nat :=
  let n : Int := (b.length : Int)
  let norm : Int → Nat := fun x => (if x < 0 then max (n + x) 0 else min x n).toNat
  ((b.drop (norm s)).take (norm e - norm s))

/-- `Buffer.toString()` (UTF-8 decode) restricted to the ASCII range, which is
all any claim exercises: each byte becomes one character. -/
def bytesToStr (bs : List Nat) : String := String.mk (bs.map Char.ofNat)

/-- JS `String.prototype.split` with a single-character separator, spelled
out over the character list (Lean's own `String.splitOn` is compiled with
well-founded recursion and does not evaluate inside the kernel). -/
def jsSplitAux (sep : Char) : List Char → List Char → List String
  | [], cur => [String.mk cur.reverse]
  | c :: rest, cur =>
    if c = sep then String.mk cur.reverse :: jsSplitAux sep rest []
    else jsSplitAux sep rest (c :: cur)

/-- JS `"x&y".split('&')`. -/
def jsSplit (s : String) (sep : Char) : List String := jsSplitAux sep s.data []

/-- JS `String.prototype.trim`: strip leading and trailing whitespace. -/
def jsTrim (s : String) : String :=
  String.mk
    (((s.data.dropWhile (·.isWhitespace)).reverse.dropWhile
      (·.isWhitespace)).reverse)

/-- `readPstring` from the source: a 16-bit (signed, as written:
`readInt16LE`) length prefix followed by that many bytes. -/
def readPstring (b : List Nat) (off : Nat) : Except Err String := do
  let n ← readInt16LE b off
  return bytesToStr (jsSub b ((off : Int) + 2) ((off : Int) + 2 + n))

/-- `AseUserData` (chunk type 0x2020) payload: optional text and color.
The extended property map is intentionally not decoded by the source. -/
structure AseUserData where
  text : Option String
  color : Option (List Nat)
  deriving DecidableEq, Repr

/-- `AseLayerChunk.data`.  The source hardcodes every field other than the
seven flag booleans and the name (see `parseLayer`). -/
structure LayerData where
  visible : Bool
  editable : Bool
  lock : Bool
  background : Bool
  prefer_linked : Bool
  collapsed : Bool
  reference : Bool
  layer_type : Nat
  child_level : Nat
  default_width : Nat
  default_height : Nat
  blend_mode : Nat
  opacity : Nat
  name : String
  deriving DecidableEq, Repr

/-- `AseCelChunk` minus the discriminated-union bookkeeping: after
`parseCel`, every variant carries `width`/`height`/`pixels`. -/
structure CelData where
  layeridx : Nat
  x : Int
  y : Int
  opacity : Nat
  celtype : Int
  zindex : Int
  width : Nat
  height : Nat
  pixels : List Nat
  deriving DecidableEq, Repr

/-- `AseColorProfileChunk` (sans the never-populated `icc_profile`). -/
structure ColorProfileData where
  color_type : Nat
  specialFixedGamma : Bool
  gamma : Nat
  deriving DecidableEq, Repr

/-- One tag of a Tags chunk (0x2018).  `from`/`to`/`repeat` are Lean
keywords, hence `tagFrom`/`tagTo`/`rep`. -/
structure TagData where
  tagFrom : Int
  tagTo : Int
  loop_type : Nat
  rep : Int
  color : List Nat
  name : String
  deriving DecidableEq, Repr

/-- The payload variants actually constructed by `parseFile`'s dispatch.
(The TS union also declares types 0x0011 and 0x2019, but the switch has no
case for them, so they are skip-parsed like any unknown type.)  A UserData
chunk never becomes a payload: the source's `AseChunk` union has no
`AseUserData` member and the 0x2020 case never pushes a chunk. -/
inductive ChunkPayload where
  | oldPalette (table : List (Nat × Nat × Nat))
  | layer (data : LayerData)
  | cel (c : CelData)
  | colorProfile (cp : ColorProfileData)
  | tags (ts : List TagData)
  deriving DecidableEq, Repr

/-- A decoded chunk: payload plus the `userdata` records attached to it
(the optional `userdata` array of the TS `AseChunk`; `[]` models the field
being absent, which coincide because the source only ever creates the array
to immediately push into it). -/
structure AChunk where
  payload : ChunkPayload
  userdata : List AseUserData
  deriving DecidableEq, Repr

/-- `AseFrame`. -/
structure AseFrame where
  duration : Nat
  chunks : List AChunk
  deriving DecidableEq, Repr

/-- `parseColorProfile` — note that the source reads BOTH `cp` and `flags`
from offset 0 of the payload. -/
def parseColorProfile (buffer : List Nat) : Except Err ColorProfileData := do
  let cp ← readUint16LE buffer 0
  let flags ← readUint16LE buffer 0
  return { color_type := cp, gamma := 0, specialFixedGamma := flags &&& 1 == 1 }

/-- Inner entry loop of one OldPalette packet: `for (j …; ++j, ptr += 3)`
with the `skip-- > 0 → continue` guard.  Returns the entries kept plus the
cursor value after the loop. -/
def oldPalettePacketLoop (b : List Nat) (ptr skip : Nat) :
    Nat → (List (Nat × Nat × Nat) × Nat)
  | 0 => ([], ptr)
  | n + 1 =>
    if skip > 0 then
      oldPalettePacketLoop b (ptr + 3) (skip - 1) n
    else
      let entry := (readU8 b ptr, readU8 b (ptr + 1), readU8 b (ptr + 2))
      let (rest, p) := oldPalettePacketLoop b (ptr + 3) 0 n
      (entry :: rest, p)

/-- Outer packet loop of `parseOldPalette`. -/
def oldPaletteLoop (b : List Nat) (ptr : Nat) :
    Nat → (List (Nat × Nat × Nat) × Nat)
  | 0 => ([], ptr)
  | n + 1 =>
    let skip := readU8 b ptr
    -- `buffer[ptr + 1] || 256`: both 0 and out-of-range (undefined) give 256
    let entries_count := if readU8 b (ptr + 1) == 0 then 256 else readU8 b (ptr + 1)
    let (entries, p) := oldPalettePacketLoop b ptr skip entries_count
    let (rest, p2) := oldPaletteLoop b (p + 2) n
    (entries ++ rest, p2)

/-- `parseOldPalette` (chunk 0x0004). -/
def parseOldPalette (buffer : List Nat) : Except Err ChunkPayload := do
  let packet_number ← readUint16LE buffer 0
  return .oldPalette (oldPaletteLoop buffer 2 packet_number).1

/-- `parseLayer` (chunk 0x2004): a 16-bit flag word at offset 0 decoded into
seven booleans, every other numeric field hardcoded, and the display name
read as a length-prefixed string from the fixed offset 16 (the source's
deliberate divergence from the format documentation's offset). -/
def parseLayer (buffer : List Nat) : Except Err LayerData := do
  let flags ← readUint16LE buffer 0
  let name ← readPstring buffer 16
  return {
    visible := flags &&& 1 != 0
    editable := flags &&& 2 != 0
    lock := flags &&& 4 != 0
    background := flags &&& 8 != 0
    prefer_linked := flags &&& 16 != 0
    collapsed := flags &&& 32 != 0
    reference := flags &&& 64 != 0
    layer_type := 0, child_level := 0
    default_width := 0, default_height := 0
    blend_mode := 0
    opacity := 255
    name := name }

/-- Per-tag loop of `parseTagsChunk`: cursor starts at 10; each tag reads
from/to/loop/repeat, skips the reserved run, reads a 3-byte color and one
reserved byte, then a length-prefixed name, advancing by `name.length + 2`. -/
def parseTagsLoop (b : List Nat) (ptr : Nat) : Nat → Except Err (List TagData)
  | 0 => .ok []
  | n + 1 => do
    let tagFrom ← readInt16LE b ptr
    let tagTo ← readInt16LE b (ptr + 2)
    let loop_type := readU8 b (ptr + 4)
    let rep ← readInt16LE b (ptr + 5)
    -- ptr += 7; ptr += 6
    let p := ptr + 13
    let color := [readU8 b p, readU8 b (p + 1), readU8 b (p + 2)]
    -- ptr += 3; ptr += 1
    let name ← readPstring b (p + 4)
    let rest ← parseTagsLoop b (p + 4 + name.length + 2) n
    return ⟨tagFrom, tagTo, loop_type, rep, color, name⟩ :: rest

/-- `parseTagsChunk` (chunk 0x2018): a (signed-read) 16-bit tag count, then
the tag records starting at offset 10. -/
def parseTagsChunk (b : List Nat) : Except Err (List TagData) := do
  let tag_count ← readInt16LE b 0
  parseTagsLoop b 10 tag_count.toNat

/-- `parseUserData` (chunk 0x2020): 32-bit flags; bit 0 ⇒ a length-prefixed
text string, bit 1 ⇒ a 4-byte color (read at the cursor after the optional
text).  Properties are intentionally not parsed. -/
def parseUserData (b : List Nat) : Except Err AseUserData := do
  let flags ← readUint32LE b 0
  let (text, ptr) ←
    if flags &&& 1 != 0 then do
      let t ← readPstring b 4
      pure (some t, 4 + 2 + t.length)
    else pure ((none : Option String), 4)
  let color :=
    if flags &&& 2 != 0 then some (jsSub b (ptr : Int) ((ptr : Int) + 4))
    else none
  return { text := text, color := color }

/-- Predicate of the source's linked-cel lookup
`e.type == 0x2005 && e.layeridx == layeridx`. -/
def isCelOfLayer (layeridx : Nat) (c : AChunk) : Bool :=
  match c.payload with
  | .cel cd => cd.layeridx == layeridx
  | _ => false

/-- `parseCel` (chunk 0x2005).  `previousFrames` is the array of frames fully
decoded so far; `inflateF` is the opaque `zlib.inflateSync` (`none` models it
throwing). -/
def parseCel (inflateF : List Nat → Option (List Nat)) (b : List Nat)
    (previousFrames : List AseFrame) : Except Err CelData := do
  let layeridx ← readUint16LE b 0
  let x ← readInt16LE b 2
  let y ← readInt16LE b 4
  let opacity := readU8 b 6
  let celtype ← readInt16LE b 7
  let zindex ← readInt16LE b 9
  -- 5 zero bytes
  let rest := jsSub b 16 (b.length : Int)
  if celtype = 0 then do
    let width ← readUint16LE rest 0
    let height ← readUint16LE rest 2
    return { layeridx, x, y, opacity, zindex, celtype,
             width, height, pixels := rest.drop 4 }
  else if celtype = 1 then do
    let fidx ← readUint16LE rest 0
    match previousFrames.get? fidx with
    | none => .error .typeErr  -- `originFrame.chunks` on undefined
    | some originFrame =>
      match originFrame.chunks.find? (isCelOfLayer layeridx) with
      | none => .error .typeErr  -- `originCell.y` on undefined
      | some oc =>
        match oc.payload with
        | .cel originCell =>
          return { layeridx, opacity, zindex, celtype := 1,
                   y := originCell.y, x := originCell.x,
                   pixels := originCell.pixels,
                   height := originCell.height, width := originCell.width }
        | _ => .error .typeErr  -- unreachable: find? matched a cel payload
  else if celtype = 2 then do
    let width ← readUint16LE rest 0
    let height ← readUint16LE rest 2
    match inflateF (rest.drop 4) with
    | none => .error .inflateErr
    | some pixels =>
      return { layeridx, x, y, opacity, zindex, celtype, width, height, pixels }
  else
    .error .unsupportedCel

/-- `ASEHeader` — the fields `typed-struct` lays out over the first 124 bytes
of the 128-byte header region (its reserved 84-byte tail and the 3 ignored
bytes are skipped, not stored). -/
structure AseHeader where
  size : Nat
  magic : Nat
  frame_count : Nat
  width : Nat
  height : Nat
  depth : Nat
  flags : Nat
  speed_deprecated : Nat
  zero_0 : Nat
  zero_1 : Nat
  transparent_palette_index : Nat
  color_number : Nat
  pixel_width : Nat
  pixel_height : Nat
  grid_x : Int
  grid_w : Int
  grid_width : Nat
  grid_height : Nat
  deriving DecidableEq, Repr, Inhabited

/-- `new headerParser(buffer.subarray(0, 128))` plus the
`color_number == 0 → 256` fixup in `parseFile`.  The struct layout is 124
bytes; a shorter buffer makes the getter reads throw. -/
def parseHeader (b : List Nat) : Except Err AseHeader := do
  let hb := jsSub b 0 128
  if hb.length < 124 then .error .shortStruct else
  let u16 := fun (o : Nat) => readU8 hb o + 256 * readU8 hb (o + 1)
  let u32 := fun (o : Nat) => u16 o + 65536 * u16 (o + 2)
  let i16 := fun (o : Nat) =>
    if u16 o < 32768 then ((u16 o : Int)) else ((u16 o : Int)) - 65536
  let cn := u16 28
  return {
    size := u32 0, magic := u16 4, frame_count := u16 6, width := u16 8,
    height := u16 10, depth := u16 12, flags := u32 14,
    speed_deprecated := u16 18, zero_0 := u16 20, zero_1 := u16 22,
    transparent_palette_index := readU8 hb 24,
    color_number := if cn == 0 then 256 else cn,
    pixel_width := readU8 hb 30, pixel_height := readU8 hb 31,
    grid_x := i16 32, grid_w := i16 34,
    grid_width := u16 36, grid_height := u16 38 }

/-- `ASEFrame` header struct (14-byte layout read out of the 16-byte slice),
with the `chunk_count == 0 → chunk_count_old` fixup of `parseFile` already
applied to the `chunk_count` field. -/
structure FrameHeader where
  size : Nat
  magic : Nat
  chunk_count_old : Nat
  frame_duration : Nat
  chunk_count : Nat
  deriving DecidableEq, Repr

/-- `new frameParser(buffer.subarray(ptr, ptr + 16))` plus the chunk-count
fixup. -/
def parseFrameHeader (b : List Nat) (ptr : Nat) : Except Err FrameHeader := do
  let sl := jsSub b (ptr : Int) ((ptr : Int) + 16)
  if sl.length < 14 then .error .shortStruct else
  let u16 := fun (o : Nat) => readU8 sl o + 256 * readU8 sl (o + 1)
  let u32 := fun (o : Nat) => u16 o + 65536 * u16 (o + 2)
  let cc := u16 12
  return { size := u32 0, magic := u16 4, chunk_count_old := u16 6,
           frame_duration := u16 8,
           chunk_count := if cc == 0 then u16 6 else cc }

/-- What one iteration of the chunk loop decides to do, before touching the
`chunks`/`pchunk`/`seentypes` state. -/
inductive StepKind where
  /-- A recognized content chunk: push it and make it the new `pchunk`. -/
  | push (p : ChunkPayload)
  /-- A 0x2020 chunk: fold the record into `pchunk`'s userdata (drop it if
  there is no `pchunk` yet). -/
  | attachUD (u : AseUserData)
  /-- An unrecognized type: record it in `seentypes` and skip. -/
  | skipType (t : Nat)
  deriving DecidableEq, Repr

/-- The `switch (chunk_type)` dispatch of `parseFile`'s chunk loop, acting
on the sliced payload `data`. -/
def dispatchChunk (inflateF : List Nat → Option (List Nat))
    (frames : List AseFrame) (chunk_type : Nat) (data : List Nat) :
    Except Err StepKind :=
  if chunk_type = 0x0004 then
    (parseOldPalette data).map .push
  else if chunk_type = 0x2004 then
    (parseLayer data).map (fun l => .push (.layer l))
  else if chunk_type = 0x2005 then
    (parseCel inflateF data frames).map (fun c => .push (.cel c))
  else if chunk_type = 0x2007 then
    (parseColorProfile data).map (fun cp => .push (.colorProfile cp))
  else if chunk_type = 0x2018 then
    (parseTagsChunk data).map (fun ts => .push (.tags ts))
  else if chunk_type = 0x2020 then
    (parseUserData data).map .attachUD
  else
    .ok (.skipType chunk_type)

/-- One iteration of `parseFile`'s chunk loop, up to the pure state update:
reads the declared size and type at `ptr`, slices the payload
(`subarray(ptr + 6, ptr + chunksize)`), dispatches on the type, and returns
the action together with the new cursor `ptr + chunksize` (every arm of the
source's switch advances the cursor by exactly the declared size). -/
def classifyChunk (inflateF : List Nat → Option (List Nat)) (buffer : List Nat)
    (frames : List AseFrame) (ptr : Nat) : Except Err (StepKind × Nat) := do
  let chunksize ← readUint32LE buffer ptr
  let chunk_type ← readUint16LE buffer (ptr + 4)
  let data := jsSub buffer ((ptr : Int) + 6) ((ptr : Int) + (chunksize : Int))
  let kind ← dispatchChunk inflateF frames chunk_type data
  return (kind, ptr + chunksize)

/-- JS `Set.add`: insertion-ordered, ignores duplicates. -/
def addSeen (seen : List Nat) (t : Nat) : List Nat :=
  if t ∈ seen then seen else seen ++ [t]

/-- Append a userdata record to the last chunk of the list — the source's
`pchunk.userdata.push(ud)`, where `pchunk` is always the most recently
pushed chunk of the current frame. -/
def attachToLast (chunks : List AChunk) (u : AseUserData) : List AChunk :=
  match chunks.getLast? with
  | none => chunks
  | some c => chunks.dropLast ++ [{ c with userdata := c.userdata ++ [u] }]

/-- The pure state update of one chunk-loop iteration. -/
def applyStep (s : List AChunk × List Nat) (k : StepKind) :
    List AChunk × List Nat :=
  match k with
  | .push p => (s.1 ++ [⟨p, []⟩], s.2)
  | .attachUD u => (attachToLast s.1 u, s.2)
  | .skipType t => (s.1, addSeen s.2 t)

/-- The chunk loop of one frame: `count` iterations of classify-then-update,
threading the cursor, the frame's chunk list and the document-wide
`seentypes`. -/
def parseChunks (inflateF : List Nat → Option (List Nat)) (buffer : List Nat)
    (frames : List AseFrame) :
    Nat → Nat → List AChunk × List Nat →
    Except Err (Nat × (List AChunk × List Nat))
  | 0, ptr, s => .ok (ptr, s)
  | n + 1, ptr, s => do
    let (k, p2) ← classifyChunk inflateF buffer frames ptr
    parseChunks inflateF buffer frames n p2 (applyStep s k)

/-- The classification sequence of a frame's chunk stream: the same loop as
`parseChunks` with the pure state updates erased.  (Classification never
depends on the chunk/seen state, only on `buffer`, the completed `frames`
and the cursor, so the two runs see identical inputs.) -/
def classifySeq (inflateF : List Nat → Option (List Nat)) (buffer : List Nat)
    (frames : List AseFrame) : Nat → Nat → Except Err (List StepKind)
  | 0, _ => .ok []
  | n + 1, ptr => do
    let (k, p2) ← classifyChunk inflateF buffer frames ptr
    let rest ← classifySeq inflateF buffer frames n p2
    return k :: rest

/-- The result object of `parseFile`. -/
structure ParsedDoc where
  header : AseHeader
  frames : List AseFrame
  types : List String
  deriving DecidableEq, Repr, Inhabited

/-- The frame loop of `parseFile`: decode `count` frames starting at `ptr`. -/
def parseFrames (inflateF : List Nat → Option (List Nat)) (buffer : List Nat) :
    Nat → Nat → List AseFrame → List Nat →
    Except Err (List AseFrame × List Nat)
  | 0, _, frames, seen => .ok (frames, seen)
  | n + 1, ptr, frames, seen => do
    let fh ← parseFrameHeader buffer ptr
    let (p2, chunks, seen2) ←
      parseChunks inflateF buffer frames fh.chunk_count (ptr + 16) ([], seen)
    parseFrames inflateF buffer n p2
      (frames ++ [{ duration := fh.frame_duration, chunks := chunks }]) seen2

/-- `parseFile`: header, then `frame_count` frames each with its chunk loop;
`seentypes` renders as lowercase hex at the end. -/
def parseFile (inflateF : List Nat → Option (List Nat)) (buffer : List Nat) :
    Except Err ParsedDoc := do
  let header ← parseHeader buffer
  let (frames, seen) ← parseFrames inflateF buffer header.frame_count 128 [] []
  return { header := header, frames := frames,
           types := seen.map (fun e => (Nat.toDigits 16 e).asString) }

/-! ## The asset reducer (`doGeneration`) -/

/-- Is this chunk a Layer chunk (`e.type == 0x2004`)? -/
def isLayerChunk (c : AChunk) : Bool :=
  match c.payload with
  | .layer _ => true
  | _ => false

/-- Is this chunk a Cel chunk (`t.type == 0x2005`)? -/
def isCelChunk (c : AChunk) : Bool :=
  match c.payload with
  | .cel _ => true
  | _ => false

/-- `layers = parsed.frames.flatMap(e => e.chunks.filter(e => e.type == 0x2004))`
— NOTE: across ALL frames, not only frame 0. -/
def layersOf (doc : ParsedDoc) : List AChunk :=
  doc.frames.flatMap (fun f => f.chunks.filter isLayerChunk)

/-- The used layers paired with their positions in `layersOf`.  The source
computes `usedlayers = layers.filter(l => l.userdata?.length)` and
`layerid = usedlayers.map(e => layers.indexOf(e))`; since `indexOf` compares
object identity and the filter preserves the objects, each used layer's
`indexOf` is exactly its position in `layers`, which `enum` records. -/
def usedPairsOf (doc : ParsedDoc) : List (Nat × AChunk) :=
  (layersOf doc).enum.filter (fun p => !p.2.userdata.isEmpty)

/-- `usedlayers`. -/
def usedlayersOf (doc : ParsedDoc) : List AChunk := (usedPairsOf doc).map (·.2)

/-- `layerid`. -/
def layeridOf (doc : ParsedDoc) : List Nat := (usedPairsOf doc).map (·.1)

/-- The synthesized zero-sized placeholder cel for layer `lid`. -/
def emptyCel (lid : Nat) : CelData :=
  { layeridx := lid, zindex := 0, opacity := 255, celtype := 0,
    x := 0, y := 0, width := 0, height := 0, pixels := [] }

/-- The real cels of one frame, in chunk order
(`e.chunks.filter(t => t.type == 0x2005)`). -/
def realCels (f : AseFrame) : List CelData :=
  f.chunks.filterMap (fun c =>
    match c.payload with
    | .cel cd => some cd
    | _ => none)

/-- The placeholder cels appended for one frame: the source seeds
`remaining_ids` with `0 .. layers.length - 1` (JS `Set` iteration =
insertion order, so ascending), deletes every id that has a real cel in the
frame, then deletes ids of unused layers; each survivor becomes an empty
cel. -/
def placeholdersFor (doc : ParsedDoc) (f : AseFrame) : List CelData :=
  ((List.range (layersOf doc).length).filter (fun i =>
      ((realCels f).all (fun r => r.layeridx != i)) &&
        (layeridOf doc).contains i)).map
    emptyCel

/-- `cells`: per frame, the real cels followed by the placeholders. -/
def cellsOf (doc : ParsedDoc) : List CelData :=
  doc.frames.flatMap (fun f => realCels f ++ placeholdersFor doc f)

/-- `crcs = cells.map(e => crc(e.pixels))` for the opaque fingerprint
`crcF`. -/
def crcsOf (crcF : List Nat → Nat) (doc : ParsedDoc) : List Nat :=
  (cellsOf doc).map (fun c => crcF c.pixels)

/-- `crc2uniqcell.get h`, as an index into `cells`: the first cell whose
fingerprint is `h` (the filter pass keeps exactly the first occurrence of
each fingerprint). -/
def firstIdxOf (crcF : List Nat → Nat) (doc : ParsedDoc) (h : Nat) : Option Nat :=
  (crcsOf crcF doc).findIdx? (fun v => v == h)

/-- The `added` set as indices into `cells`, in insertion order: the indices
whose fingerprint has not occurred earlier. -/
def addedIdxs (crcF : List Nat → Nat) (doc : ParsedDoc) : List Nat :=
  (List.range (cellsOf doc).length).filter (fun i =>
    firstIdxOf crcF doc ((crcsOf crcF doc).getD i 0) == some i)

/-- `uniquecells = [...added].filter(c => c.width && layers[c.layeridx].userdata)`
as indices into `cells`.  `&&` short-circuits, so `layers[c.layeridx]` is
only touched when the width is nonzero; if `c.layeridx` is out of range that
access is a `TypeError` (property read on `undefined`).  The `userdata`
array, when present, is always nonempty (it is created only to be pushed
into), so its JS truthiness is `userdata ≠ []` in this model. -/
def uniquecellIdxs (crcF : List Nat → Nat) (doc : ParsedDoc) :
    List Nat → Except Err (List Nat)
  | [] => .ok []
  | i :: rest =>
    let c := (cellsOf doc).getD i (emptyCel 0)
    if c.width = 0 then uniquecellIdxs crcF doc rest
    else
      match (layersOf doc).get? c.layeridx with
      | none => .error .typeErr
      | some l => do
        let r ← uniquecellIdxs crcF doc rest
        return if !l.userdata.isEmpty then i :: r else r

/-- First-seen-order deduplication — JS `new Set(list)` materialized with
spreading. -/
def firstSeen (l : List String) : List String :=
  l.foldl (fun acc x => if x ∈ acc then acc else acc ++ [x]) []

/-- `animflags`: every used layer's userdata texts, split on the ampersand,
with falsy entries — both the empty string and the `undefined` produced for
a text-less record — removed by `.filter(e => e)`, then deduplicated in
first-seen order. -/
def animflagsOf (doc : ParsedDoc) : List String :=
  firstSeen (((usedlayersOf doc).flatMap (fun l =>
    l.userdata.flatMap (fun u =>
      match u.text with
      | some t => jsSplit t (Char.ofNat 38)
      | none => [""]))).filter (fun s => s ≠ ""))

/-- `flags = Object.fromEntries([...animflags].map((e, i) => [e, i]))`. -/
def flagsOf (doc : ParsedDoc) : List (String × Nat) :=
  (animflagsOf doc).enum.map (fun p => (p.2, p.1))

/-- Property lookup on the `flags` object (`u in flags` / `flags[u]`); keys
are unique so first match suffices. -/
def flagsLookup (flags : List (String × Nat)) (u : String) : Option Nat :=
  (flags.find? (fun p => p.1 == u)).map (·.2)

/-- `computeFlags`: split on the ampersand, trim each token, OR in
`1 << flags[u]` for the tokens present in the vocabulary. -/
def computeFlags (flags : List (String × Nat)) (n : String) : Nat :=
  ((jsSplit n (Char.ofNat 38)).map jsTrim).foldl (fun ret u =>
    match flagsLookup flags u with
    | some i => ret ||| (1 <<< i)
    | none => ret) 0

/-- Result shape of the opaque `pack` call: an overall bin size plus one
placement per packed rectangle.  An item's first component is the index of
the cel it references *within the input list* (bin-pack returns the input
objects themselves in `item`; identity is modelled positionally). -/
structure PackOut where
  width : Nat
  height : Nat
  items : List (Nat × Int × Int)
  deriving DecidableEq, Repr

/-- `celtoitem.get`, keyed by a cell's index into `cells`: scan the pack
items (a later `Map.set` on the same cel wins, hence the reverse), translate
each item's input-list position back to a `cells` index, return the
placement origin. -/
def celtoitemOf (uniq : List Nat) (res2 : PackOut) (cellIdx : Nat) :
    Option (Int × Int) :=
  (res2.items.reverse.find? (fun it => uniq.get? it.1 == some cellIdx)).map
    (fun it => (it.2.1, it.2.2))

/-- Storage conversion of `Int16Array`: values wrap to signed 16 bits. -/
def toInt16 (v : Int) : Int := (v + 32768) % 65536 - 32768

/-- The six values written for one cel (one iteration of the inner emission
loop): resolve the fingerprint representative (`Wtf` if somehow absent), six
zeros when `cel.width` is 0, otherwise the cel's own x/y/width/height and
the representative's atlas origin (`Wtf2` if the representative has no
placement). -/
def record6 (crcF : List Nat → Nat) (doc : ParsedDoc)
    (celto : Nat → Option (Int × Int)) (cel : CelData) :
    Except Err (List Int) :=
  match firstIdxOf crcF doc (crcF cel.pixels) with
  | none => .error .wtf
  | some u =>
    if cel.width = 0 then .ok [0, 0, 0, 0, 0, 0]
    else
      match celto u with
      | none => .error .wtf2
      | some (zx, zy) =>
        .ok [toInt16 cel.x, toInt16 cel.y, toInt16 (cel.width : Int),
             toInt16 (cel.height : Int), toInt16 zx, toInt16 zy]

/-- `for (let l of usedlayers)`: per used layer, when `animdata` is set,
scan the whole `cells` list keeping this layer's cels (`layerid[0]` with the
trailing `layerid.shift()` pairs the k-th used layer with the k-th id) and
emit six values each; then push `computeFlags(l.userdata[0].text)` — a
`TypeError` if the first userdata record has no text. -/
def emitLayerRecs (crcF : List Nat → Nat) (doc : ParsedDoc)
    (celto : Nat → Option (Int × Int)) (animdata : Bool) (lid : Nat) :
    Except Err (List Int) :=
  if animdata then
    (((cellsOf doc).filter (fun c => c.layeridx == lid)).mapM
      (record6 crcF doc celto)).map List.flatten
  else pure []

def layerLoop (crcF : List Nat → Nat) (doc : ParsedDoc)
    (celto : Nat → Option (Int × Int)) (flags : List (String × Nat))
    (animdata : Bool) :
    List (Nat × AChunk) → Except Err (List Int × List Nat)
  | [] => .ok ([], [])
  | (lid, l) :: rest => do
    let recs ← emitLayerRecs crcF doc celto animdata lid
    let meta ←
      match l.userdata.head? with
      | some u =>
        match u.text with
        | some t => pure (computeFlags flags t)
        | none => .error .typeErr  -- computeFlags(undefined): .split on undefined
      | none => .error .typeErr   -- unreachable: used layers have userdata
    let (rs, ms) ← layerLoop crcF doc celto flags animdata rest
    return (recs ++ rs, meta :: ms)

/-- The tag list of a chunk, when it is a Tags chunk
(`e.type == 0x2018`). -/
def tagsOf (c : AChunk) : Option (List TagData) :=
  match c.payload with
  | .tags ts => some ts
  | _ => none

/-- `parsed.frames.flatMap(e => e.chunks).find(e => e.type == 0x2018)` — the
FIRST Tags chunk in decode order. -/
def firstTags (doc : ParsedDoc) : Option (List TagData) :=
  (doc.frames.flatMap (fun f => f.chunks)).findSome? tagsOf

/-- `anims` / `retagged` lookup: `Object.fromEntries` keeps the LAST entry
for a duplicated name, hence the reverse scan. -/
def lookupAnim (anims : List (String × (Int × Int × Nat × Int))) (name : String) :
    Option (Int × Int × Nat × Int) :=
  (anims.reverse.find? (fun p => p.1 == name)).map (·.2)

/-- The outputs of `doGeneration` that the generated module and the binary
blob expose (the PNG raster and the code-string templating around these
values are out of scope of every claim). -/
structure GenResult where
  flags : List (String × Nat)
  layers_props : List Nat
  anims : List (String × (Int × Int × Nat × Int))
  animArr : List Int
  extent : Nat × Nat
  frame_count : Nat
  frame_durations : List Nat
  deriving DecidableEq, Repr, Inhabited

/-- `doGeneration` from the decoded document on: the dedup pass, the pack
call (`packF` opaque), the flag vocabulary, the per-layer emission loop, the
tag table.  `animArr` models the `Int16Array`: preallocated zeros of length
`6 * usedlayers.length * frame_count`, sequential writes, writes past the
end silently dropped. -/
def doGenerationDoc (crcF : List Nat → Nat) (packF : List CelData → PackOut)
    (doc : ParsedDoc) (animdata : Bool) : Except Err GenResult := do
  let cells := cellsOf doc
  let uniq ← uniquecellIdxs crcF doc (addedIdxs crcF doc)
  let res2 := packF (uniq.map (fun i => cells.getD i (emptyCel 0)))
  let celto := celtoitemOf uniq res2
  let flags := flagsOf doc
  let cap := 6 * (usedlayersOf doc).length * doc.header.frame_count
  let (seq, layermeta) ←
    layerLoop crcF doc celto flags animdata (usedPairsOf doc)
  let arr := seq.take cap ++ List.replicate (cap - seq.length) 0
  let tags ←
    match firstTags doc with
    | some ts => pure ts
    | none => .error .typeErr  -- `tags.tags` on undefined
  return {
    flags := flags
    layers_props := layermeta
    anims := tags.map (fun t => (t.name, (t.tagFrom, t.tagTo, t.loop_type, t.rep)))
    animArr := arr
    extent := (doc.header.width, doc.header.height)
    frame_count := doc.header.frame_count
    frame_durations := doc.frames.map (·.duration) }

/-- `doGeneration` from the raw file bytes: `parseFile` then the reduction. -/
def doGeneration (crcF : List Nat → Nat) (packF : List CelData → PackOut)
    (inflateF : List Nat → Option (List Nat)) (file : List Nat)
    (animdata : Bool) : Except Err GenResult := do
  let parsed ← parseFile inflateF file
  doGenerationDoc crcF packF parsed animdata

/-! ## Spec-side definitions

These few definitions follow the *spec's words* (not the source); they exist
only to be compared with the source-derived definitions above. -/

/-- Spec 4.2 step 2/8: "that pairing's cel" — the frame's single real cel on
layer `lid`, or the synthesized zero-sized placeholder when the frame has
none. -/
def celForPair (lid : Nat) (f : AseFrame) : CelData :=
  ((realCels f).find? (fun c => c.layeridx == lid)).getD (emptyCel lid)

/-- Spec 4.2 step 8, the six emitted values, written to the spec's words:
six zeros for an empty cel, otherwise the cel's own x/y/width/height
followed by the atlas origin of the cel's fingerprint representative.  Total
(the `[0,…]` fallback is unreachable whenever the source emission
succeeded). -/
def recordSpec (crcF : List Nat → Nat) (doc : ParsedDoc)
    (celto : Nat → Option (Int × Int)) (cel : CelData) : List Int :=
  if cel.width = 0 then [0, 0, 0, 0, 0, 0]
  else
    match (firstIdxOf crcF doc (crcF cel.pixels)).bind celto with
    | some (zx, zy) =>
      [toInt16 cel.x, toInt16 cel.y, toInt16 (cel.width : Int),
       toInt16 (cel.height : Int), toInt16 zx, toInt16 zy]
    | none => [0, 0, 0, 0, 0, 0]

/-- Spec 4.1 (UserData): the userdata records a content chunk owns are
exactly the UserData chunks decoded after it and before the next content
chunk (unknown skipped chunks in between do not interrupt the attachment). -/
def udsUntilPush : List StepKind → List AseUserData
  | [] => []
  | .push _ :: _ => []
  | .attachUD u :: rest => u :: udsUntilPush rest
  | .skipType _ :: rest => udsUntilPush rest

/-- One content chunk `c` absorbing the userdata that follows it, then the
remaining content chunks doing the same. -/
def consume (c : AChunk) : List StepKind → List AChunk
  | [] => [c]
  | .push p :: rest => c :: consume ⟨p, []⟩ rest
  | .attachUD u :: rest => consume ⟨c.payload, c.userdata ++ [u]⟩ rest
  | .skipType _ :: rest => consume c rest

/-- Spec 4.1 (UserData), whole-frame shape: the frame's chunk list consists
of the content chunks in decode order, each carrying the UserData records
that follow it up to the next content chunk; UserData decoded before any
content chunk is dropped. -/
def attachSpec : List StepKind → List AChunk
  | [] => []
  | .push p :: rest => consume ⟨p, []⟩ rest
  | .attachUD _ :: rest => attachSpec rest
  | .skipType _ :: rest => attachSpec rest

/-! ## Byte-level input builders (test fixtures for the concrete theorems) -/

/-- Two little-endian bytes. -/
def le16 (n : Nat) : List Nat := [n % 256, n / 256 % 256]

/-- Four little-endian bytes. -/
def le32 (n : Nat) : List Nat :=
  [n % 256, n / 256 % 256, n / 65536 % 256, n / 16777216 % 256]

/-- ASCII bytes of a string. -/
def strBytes (s : String) : List Nat := s.data.map Char.toNat

/-- A 128-byte file header with the given frame count and canvas size. -/
def mkHeader (frameCount width height : Nat) : List Nat :=
  le32 0 ++ le16 0xA5E0 ++ le16 frameCount ++ le16 width ++ le16 height ++
  le16 32 ++ le32 0 ++ le16 0 ++ le16 0 ++ le16 0 ++ [0] ++ [0, 0, 0] ++
  le16 0 ++ [1, 1] ++ le16 0 ++ le16 0 ++ le16 0 ++ le16 0 ++
  List.replicate 88 0

/-- A chunk: 4-byte declared size (header inclusive), 2-byte type, payload. -/
def mkChunk (t : Nat) (payload : List Nat) : List Nat :=
  le32 (payload.length + 6) ++ le16 t ++ payload

/-- A frame: 16-byte frame header (the struct layout covers 14 bytes, the
decoder skips 16) then the chunk bytes. -/
def mkFrame (duration : Nat) (chunks : List (List Nat)) : List Nat :=
  le32 (16 + chunks.flatten.length) ++ le16 0xF1FA ++ le16 chunks.length ++
  le16 duration ++ [0, 0] ++ le16 chunks.length ++ [0, 0] ++ chunks.flatten

/-- A Layer chunk payload: flags at offset 0, the name as a length-prefixed
string at offset 16. -/
def mkLayerPayload (flags : Nat) (name : String) : List Nat :=
  le16 flags ++ List.replicate 14 0 ++ le16 (strBytes name).length ++
  strBytes name

/-- A UserData chunk payload carrying only a text string. -/
def mkUserDataPayload (text : String) : List Nat :=
  le32 1 ++ le16 (strBytes text).length ++ strBytes text

/-- A raw (type 0) Cel chunk payload. -/
def mkCelRawPayload (lid : Nat) (x y w h : Nat) (pixels : List Nat) : List Nat :=
  le16 lid ++ le16 x ++ le16 y ++ [255] ++ le16 0 ++ le16 0 ++
  List.replicate 5 0 ++ le16 w ++ le16 h ++ pixels

/-- A linked (type 1) Cel chunk payload. -/
def mkCelLinkedPayload (lid : Nat) (frameIdx : Nat) : List Nat :=
  le16 lid ++ le16 0 ++ le16 0 ++ [255] ++ le16 1 ++ le16 0 ++
  List.replicate 5 0 ++ le16 frameIdx

/-- One tag record inside a Tags chunk payload. -/
def mkTagRecord (tagFrom tagTo loop rp : Nat) (name : String) : List Nat :=
  le16 tagFrom ++ le16 tagTo ++ [loop] ++ le16 rp ++ List.replicate 6 0 ++
  [10, 20, 30] ++ [0] ++ le16 (strBytes name).length ++ strBytes name

/-- A Tags chunk payload: 16-bit count, 8 reserved bytes, the tag records. -/
def mkTagsPayload (tags : List (List Nat)) : List Nat :=
  le16 tags.length ++ List.replicate 8 0 ++ tags.flatten

/-! ## Concrete fixtures shared by the closed theorems -/

/-- An inflate stand-in that always throws (no claim input uses compressed
cels). -/
def noInflate : List Nat → Option (List Nat) := fun _ => none

/-- A concrete injective-enough fingerprint for the closed evaluations. -/
def crc0 : List Nat → Nat := fun l => l.foldl (fun a b => a * 257 + b + 1) 7

/-- A pack stand-in returning no placements (used where nothing reaches the
packer). -/
def packNone : List CelData → PackOut := fun _ => ⟨0, 0, []⟩

/-- A pack stand-in placing the n-th input rectangle at x = n, y = 0. -/
def packSeq : List CelData → PackOut :=
  fun l => ⟨4, 4, (List.range l.length).map (fun i => (i, (i : Int), 0))⟩

/-! ## C10 — parseColorProfile reads kind and flags both from offset 0 -/

/-- C10: `parseColorProfile` derives everything from the 16-bit value at
byte offset 0 of the payload: the returned `specialFixedGamma` is true
exactly when that profile-kind value has its lowest bit set, and bytes at
offset 2 and beyond (the actual flag word) are never read — two payloads
agreeing on their first two bytes decode identically. -/
theorem parseColorProfile_offset0 (b c : List Nat) :
    (2 ≤ b.length →
      parseColorProfile b =
        .ok { color_type := b.getD 0 0 + 256 * b.getD 1 0, gamma := 0,
              specialFixedGamma := (b.getD 0 0 + 256 * b.getD 1 0) &&& 1 == 1 }) ∧
    (b.take 2 = c.take 2 → parseColorProfile b = parseColorProfile c) := by
  constructor
  · intro h
    simp [parseColorProfile, readUint16LE, h]
    rfl
  · intro h
    match b, c with
    | [], [] => rfl
    | [], _ :: _ => simp at h
    | _ :: _, [] => simp at h
    | [b0], [c0] =>
      have h0 : b0 = c0 := by simpa using congrArg (fun l => l.getD 0 0) h
      subst h0; rfl
    | [b0], _ :: _ :: _ => simpa using congrArg List.length h
    | _ :: _ :: _, [c0] => simpa using congrArg List.length h
    | b0 :: b1 :: bt, c0 :: c1 :: ct =>
      have h0 : b0 = c0 := by simpa using congrArg (fun l => l.getD 0 0) h
      have h1 : b1 = c1 := by simpa using congrArg (fun l => l.getD 1 0) h
      subst h0; subst h1
      simp [parseColorProfile, readUint16LE]

/-- Witness for C10 at the sRGB profile kind (value 1): `specialFixedGamma`
comes back true, and extending the payload with a nonzero flag word at
offset 2 changes nothing. -/
theorem parseColorProfile_offset0_witness :
    (2 ≤ ([1, 0] : List Nat).length ∧
      ([1, 0] : List Nat).take 2 = ([1, 0, 255, 255] : List Nat).take 2) ∧
    parseColorProfile [1, 0] =
      .ok { color_type := 1, gamma := 0, specialFixedGamma := true } ∧
    parseColorProfile [1, 0] = parseColorProfile [1, 0, 255, 255] := by
  refine ⟨⟨by decide, by decide⟩, ?_, ?_⟩
  · have h := (parseColorProfile_offset0 [1, 0] [1, 0, 255, 255]).1 (by decide)
    simpa using h
  · exact (parseColorProfile_offset0 [1, 0] [1, 0, 255, 255]).2 (by decide)

/-! ## C7 — every chunk advances the cursor by its declared size; unknown
types are skipped without error -/

/-- C7: for any chunk whose 4-byte size and 2-byte type fields are readable,
(a) whatever the type, a successful classification leaves the cursor at
`ptr + size`, and (b) if the type is not one of the six recognized tags the
classification is guaranteed to succeed with a skip action at `ptr + size`
— so an unknown chunk raises no error and the chunk/frame loops continue
past it. -/
theorem classifyChunk_skip_advance (inflF : List Nat → Option (List Nat))
    (buffer : List Nat) (frames : List AseFrame) (ptr sz t : Nat)
    (hsz : readUint32LE buffer ptr = .ok sz)
    (ht : readUint16LE buffer (ptr + 4) = .ok t) :
    (∀ k p2, classifyChunk inflF buffer frames ptr = .ok (k, p2) →
      p2 = ptr + sz) ∧
    (t ∉ ([0x0004, 0x2004, 0x2005, 0x2007, 0x2018, 0x2020] : List Nat) →
      classifyChunk inflF buffer frames ptr = .ok (.skipType t, ptr + sz)) := by
  constructor
  · intro k p2 hok
    unfold classifyChunk at hok
    rw [hsz, ht] at hok
    simp only [bind, Except.bind] at hok
    cases hb : dispatchChunk inflF frames t
        (jsSub buffer ((ptr : Int) + 6) ((ptr : Int) + (sz : Int))) with
    | error e => rw [hb] at hok; exact absurd hok (by simp)
    | ok kind =>
      rw [hb] at hok
      simp only [pure, Except.pure, Except.ok.injEq, Prod.mk.injEq] at hok
      exact hok.2.symm
  · intro hmem
    have h4 : t ≠ 0x0004 := fun h => hmem (by simp [h])
    have h2004 : t ≠ 0x2004 := fun h => hmem (by simp [h])
    have h2005 : t ≠ 0x2005 := fun h => hmem (by simp [h])
    have h2007 : t ≠ 0x2007 := fun h => hmem (by simp [h])
    have h2018 : t ≠ 0x2018 := fun h => hmem (by simp [h])
    have h2020 : t ≠ 0x2020 := fun h => hmem (by simp [h])
    unfold classifyChunk dispatchChunk
    rw [hsz, ht]
    simp [h4, h2004, h2005, h2007, h2018, h2020, bind, Except.bind, pure,
      Except.pure]

/-- Witness for C7: a chunk of the unrecognized type 0x2019 (new Palette) in
a concrete stream is skipped with the cursor moved by its declared size 11,
and a subsequent chunk still decodes — the whole two-chunk frame parses. -/
theorem classifyChunk_skip_advance_witness :
    (readUint32LE (mkChunk 0x2019 [1, 2, 3, 4, 5] ++ mkChunk 0x2007 [1, 0]) 0
        = .ok 11 ∧
      readUint16LE (mkChunk 0x2019 [1, 2, 3, 4, 5] ++ mkChunk 0x2007 [1, 0]) 4
        = .ok 0x2019 ∧
      (0x2019 : Nat) ∉ ([0x0004, 0x2004, 0x2005, 0x2007, 0x2018, 0x2020] : List Nat)) ∧
    classifyChunk noInflate (mkChunk 0x2019 [1, 2, 3, 4, 5] ++ mkChunk 0x2007 [1, 0]) [] 0
      = .ok (.skipType 0x2019, 11) ∧
    parseChunks noInflate (mkChunk 0x2019 [1, 2, 3, 4, 5] ++ mkChunk 0x2007 [1, 0]) [] 2 0 ([], [])
      = .ok (19, [⟨.colorProfile ⟨1, true, 0⟩, []⟩], [0x2019]) := by
  refine ⟨⟨by decide, by decide, by decide⟩, ?_, by decide⟩
  exact (classifyChunk_skip_advance noInflate
    (mkChunk 0x2019 [1, 2, 3, 4, 5] ++ mkChunk 0x2007 [1, 0]) [] 0 11 0x2019
    (by decide) (by decide)).2 (by decide)

/-! ## C2 — a linked cel is bit-identical to its resolved origin cel -/

/-- C2: decoding a type-1 (linked) cel whose 16-bit frame index resolves to
an already-decoded frame containing a cel chunk with this chunk's layer
index produces a cel whose x, y, width, height and pixel bytes are exactly
the origin cel's (and the matched origin cel is on the same layer index). -/
theorem parseCel_linked_copies (inflF : List Nat → Option (List Nat))
    (b : List Nat) (frames : List AseFrame) (lid : Nat) (x y zi : Int)
    (fidx : Nat) (fr : AseFrame) (oc : AChunk) (origin : CelData)
    (hl : readUint16LE b 0 = .ok lid)
    (hx : readInt16LE b 2 = .ok x)
    (hy : readInt16LE b 4 = .ok y)
    (hct : readInt16LE b 7 = .ok 1)
    (hzi : readInt16LE b 9 = .ok zi)
    (hf : readUint16LE (jsSub b 16 (b.length : Int)) 0 = .ok fidx)
    (hfr : frames[fidx]? = some fr)
    (hoc : fr.chunks.find? (isCelOfLayer lid) = some oc)
    (hpl : oc.payload = .cel origin) :
    parseCel inflF b frames =
      .ok { layeridx := lid, opacity := readU8 b 6, zindex := zi, celtype := 1,
            x := origin.x, y := origin.y, width := origin.width,
            height := origin.height, pixels := origin.pixels } ∧
    origin.layeridx = lid := by
  constructor
  · unfold parseCel
    rw [hl, hx, hy, hct, hzi]
    simp only [bind, Except.bind]
    simp [hf, hfr, hoc, hpl, pure, Except.pure]
  · have hp := List.find?_some hoc
    unfold isCelOfLayer at hp
    rw [hpl] at hp
    simpa using hp

/-- Concrete origin cel for the C2 witness. -/
def c2origin : CelData := ⟨0, 3, 4, 255, 0, 0, 1, 1, [9, 9, 9, 9]⟩

/-- Concrete already-decoded frame list for the C2 witness. -/
def c2frames : List AseFrame := [⟨100, [⟨.cel c2origin, []⟩]⟩]

/-- Witness for C2: a concrete linked cel referencing frame 0, layer 0,
decodes to a copy of that frame's cel. -/
theorem parseCel_linked_copies_witness :
    parseCel noInflate (mkCelLinkedPayload 0 0) c2frames =
      .ok { layeridx := 0, opacity := 255, zindex := 0, celtype := 1,
            x := 3, y := 4, width := 1, height := 1, pixels := [9, 9, 9, 9] } ∧
    c2origin.layeridx = 0 :=
  parseCel_linked_copies noInflate (mkCelLinkedPayload 0 0) c2frames 0 0 0 0 0
    ⟨100, [⟨.cel c2origin, []⟩]⟩ ⟨.cel c2origin, []⟩ c2origin
    (by decide) (by decide) (by decide) (by decide) (by decide) (by decide)
    (by decide) (by decide) (by decide)

/-- Extract the payload of a successful decode (fallback `default`, used
only to name concrete successful results in closed statements). -/
def okD {α : Type _} [Inhabited α] (e : Except Err α) : α :=
  match e with
  | .ok d => d
  | .error _ => default

/-! ## C5 — structural violations, errors, and the absence of partial
documents -/

/-- Decoding never yields a partial document: whenever `parseFile` returns
at all, the frame list has exactly `header.frame_count` entries (the frame
loop appends one frame per iteration or fails as a whole). -/
theorem parseFrames_length (inflF : List Nat → Option (List Nat))
    (buffer : List Nat) :
    ∀ (n ptr : Nat) (acc : List AseFrame) (seen : List Nat)
      (frames : List AseFrame) (seen2 : List Nat),
      parseFrames inflF buffer n ptr acc seen = .ok (frames, seen2) →
      frames.length = acc.length + n := by
  intro n
  induction n with
  | zero =>
    intro ptr acc seen frames seen2 h
    unfold parseFrames at h
    simp only [pure, Except.pure, Except.ok.injEq, Prod.mk.injEq] at h
    simp [← h.1]
  | succ n ih =>
    intro ptr acc seen frames seen2 h
    unfold parseFrames at h
    simp only [bind, Except.bind] at h
    cases hfh : parseFrameHeader buffer ptr with
    | error e => simp only [hfh] at h; exact absurd h (by simp)
    | ok fh =>
      simp only [hfh] at h
      cases hpc : parseChunks inflF buffer acc fh.chunk_count (ptr + 16)
          ([], seen) with
      | error e => simp only [hpc] at h; exact absurd h (by simp)
      | ok trip =>
        obtain ⟨p2, chunks2, seen2x⟩ := trip
        simp only [hpc] at h
        have := ih p2
          (acc ++ [{ duration := fh.frame_duration, chunks := chunks2 }])
          seen2x frames seen2 h
        simp at this
        omega

/-- C5 (amended): the decoder performs no structural size validation — a
declared chunk size exceeding the remaining buffer is not by itself an
error (the payload slice clamps; see the counterexample) and the errors it
does raise are the generic `Err` values, not a `MalformedFormat` citing a
chunk type; but no partial document is ever produced: a successful
`parseFile` returns exactly `header.frame_count` frames. -/
theorem parseFile_no_partial (inflF : List Nat → Option (List Nat))
    (buffer : List Nat) (doc : ParsedDoc)
    (h : parseFile inflF buffer = .ok doc) :
    doc.frames.length = doc.header.frame_count := by
  unfold parseFile at h
  simp only [bind, Except.bind] at h
  cases hh : parseHeader buffer with
  | error e => simp only [hh] at h; exact absurd h (by simp)
  | ok header =>
    simp only [hh] at h
    cases hpf : parseFrames inflF buffer header.frame_count 128 [] [] with
    | error e => simp only [hpf] at h; exact absurd h (by simp)
    | ok pr =>
      obtain ⟨frames, seen⟩ := pr
      simp only [hpf, pure, Except.pure, Except.ok.injEq] at h
      have hlen := parseFrames_length inflF buffer header.frame_count 128 [] []
        frames seen hpf
      rw [← h]
      simpa using hlen

/-- C5 counterexample input: a 1-frame file whose single ColorProfile chunk
declares size 256 while only 10 bytes remain after the frame header. -/
def c5bytes : List Nat :=
  mkHeader 1 8 8 ++
  (le32 26 ++ le16 0xF1FA ++ le16 1 ++ le16 100 ++ [0, 0] ++ le16 1 ++ [0, 0]) ++
  (le32 256 ++ le16 0x2007 ++ [1, 0, 0, 0])

/-- C5 counterexample: `c5bytes` violates the structural size invariant —
the chunk at offset 144 declares 256 bytes but the whole file is 154 bytes —
yet `parseFile` succeeds (the out-of-range `subarray` clamps), returning a
full document instead of any `MalformedFormat` failure. -/
theorem parseFile_accepts_oversized_chunk :
    readUint32LE c5bytes 144 = .ok 256 ∧
    c5bytes.length = 154 ∧
    (parseFile noInflate c5bytes).isOk = true ∧
    (parseFile noInflate c5bytes).map (fun d => d.frames.map (·.chunks.length))
      = (.ok [1] : Except Err (List Nat)) := by
  refine ⟨by decide, by decide, by decide, by decide⟩

/-- Witness for C5: `parseFile_no_partial` applied to the concrete
successful decode of `c5bytes`. -/
theorem parseFile_no_partial_witness :
    parseFile noInflate c5bytes = .ok (okD (parseFile noInflate c5bytes)) ∧
    (okD (parseFile noInflate c5bytes)).frames.length
      = (okD (parseFile noInflate c5bytes)).header.frame_count :=
  ⟨by decide,
    parseFile_no_partial noInflate c5bytes (okD (parseFile noInflate c5bytes))
      (by decide)⟩

/-! ## C3 — UserData chunks fold into the most recent content chunk -/

/-- The pure state updates of a whole chunk stream, folded in order. -/
def applySteps (s : List AChunk × List Nat) : List StepKind → List AChunk × List Nat
  | [] => s
  | k :: rest => applySteps (applyStep s k) rest

/-- `attachToLast` on a nonempty list rewrites exactly its last element. -/
theorem attachToLast_concat (pre : List AChunk) (c : AChunk) (u : AseUserData) :
    attachToLast (pre ++ [c]) u =
      pre ++ [⟨c.payload, c.userdata ++ [u]⟩] := by
  unfold attachToLast
  rw [List.getLast?_concat]
  simp [List.dropLast_concat]

/-- Folding the stream over a nonempty chunk list: the last chunk `c`
absorbs what `consume` says it absorbs. -/
theorem applySteps_concat :
    ∀ (items : List StepKind) (pre : List AChunk) (c : AChunk) (seen : List Nat),
      (applySteps (pre ++ [c], seen) items).1 = pre ++ consume c items
  | [], pre, c, seen => by simp [applySteps, consume]
  | .push p :: rest, pre, c, seen => by
    have ih := applySteps_concat rest (pre ++ [c]) ⟨p, []⟩ seen
    simp only [applySteps, applyStep, consume]
    rw [ih]
    simp
  | .attachUD u :: rest, pre, c, seen => by
    have ih := applySteps_concat rest pre ⟨c.payload, c.userdata ++ [u]⟩ seen
    simp only [applySteps, applyStep, consume]
    rw [attachToLast_concat]
    exact ih
  | .skipType t :: rest, pre, c, seen => by
    have ih := applySteps_concat rest pre c (addSeen seen t)
    simp only [applySteps, applyStep, consume]
    exact ih

/-- The chunk list produced by folding a stream from the empty state is the
spec-side grouping `attachSpec`. -/
theorem applySteps_attachSpec :
    ∀ (items : List StepKind) (seen : List Nat),
      (applySteps ([], seen) items).1 = attachSpec items
  | [], _ => rfl
  | .push p :: rest, seen => by
    simp only [applySteps, applyStep, attachSpec]
    simpa using applySteps_concat rest [] ⟨p, []⟩ seen
  | .attachUD u :: rest, seen => by
    simp only [applySteps, applyStep, attachSpec, attachToLast,
      List.getLast?_nil]
    exact applySteps_attachSpec rest seen
  | .skipType t :: rest, seen => by
    simp only [applySteps, applyStep, attachSpec]
    exact applySteps_attachSpec rest (addSeen seen t)

/-- A successful chunk loop is the classification sequence followed by the
pure fold. -/
theorem parseChunks_classifySeq (inflF : List Nat → Option (List Nat))
    (buffer : List Nat) (frames : List AseFrame) :
    ∀ (n ptr : Nat) (s : List AChunk × List Nat) (p : Nat)
      (s2 : List AChunk × List Nat),
      parseChunks inflF buffer frames n ptr s = .ok (p, s2) →
      ∃ items, classifySeq inflF buffer frames n ptr = .ok items ∧
        s2 = applySteps s items := by
  intro n
  induction n with
  | zero =>
    intro ptr s p s2 h
    unfold parseChunks at h
    simp only [Except.ok.injEq, Prod.mk.injEq] at h
    exact ⟨[], rfl, h.2.symm⟩
  | succ n ih =>
    intro ptr s p s2 h
    unfold parseChunks at h
    simp only [bind, Except.bind] at h
    cases hc : classifyChunk inflF buffer frames ptr with
    | error e => simp only [hc] at h; exact absurd h (by simp)
    | ok kp =>
      obtain ⟨k, p2⟩ := kp
      simp only [hc] at h
      obtain ⟨items, hcs, hap⟩ := ih p2 (applyStep s k) p s2 h
      refine ⟨k :: items, ?_, ?_⟩
      · unfold classifySeq
        simp only [bind, Except.bind, hc, hcs, pure, Except.pure]
      · simpa [applySteps] using hap

/-- C3: in every decoded frame, the chunk list contains no independent
UserData entry — it is exactly `attachSpec` of the classified stream: each
decoded UserData record is appended (in decode order) to the userdata list
of the most recently decoded content chunk, and the records decoded before
any content chunk are dropped. -/
theorem parseChunks_userdata_attachment (inflF : List Nat → Option (List Nat))
    (buffer : List Nat) (frames : List AseFrame) (n ptr : Nat)
    (seen : List Nat) (p : Nat) (chunks : List AChunk) (seen2 : List Nat)
    (h : parseChunks inflF buffer frames n ptr ([], seen) = .ok (p, chunks, seen2)) :
    ∃ items, classifySeq inflF buffer frames n ptr = .ok items ∧
      chunks = attachSpec items := by
  obtain ⟨items, hcs, hap⟩ := parseChunks_classifySeq inflF buffer frames n ptr
    ([], seen) p (chunks, seen2) h
  refine ⟨items, hcs, ?_⟩
  have := congrArg Prod.fst hap
  simpa [applySteps_attachSpec items seen] using this

/-- C3 witness input: a UserData chunk before any content chunk (dropped), a
ColorProfile chunk followed by a UserData, an unknown chunk, another
UserData (both attach to the ColorProfile), then a Layer chunk with its own
UserData. -/
def c3bytes : List Nat :=
  mkChunk 0x2020 (mkUserDataPayload "z") ++
  mkChunk 0x2007 [1, 0] ++
  mkChunk 0x2020 (mkUserDataPayload "u1") ++
  mkChunk 0x2019 [7] ++
  mkChunk 0x2020 (mkUserDataPayload "u2") ++
  mkChunk 0x2004 (mkLayerPayload 1 "bg") ++
  mkChunk 0x2020 (mkUserDataPayload "u3")

/-- Witness for C3 on `c3bytes`: two content chunks come out, the leading
UserData is dropped, the ColorProfile owns the two records around the
unknown chunk, the Layer owns the final one — and that equals `attachSpec`
of the classified stream. -/
theorem parseChunks_userdata_attachment_witness :
    parseChunks noInflate c3bytes [] 7 0 ([], [])
      = .ok (96, (okD (parseChunks noInflate c3bytes [] 7 0 ([], []))).2.1,
             [0x2019]) ∧
    (okD (parseChunks noInflate c3bytes [] 7 0 ([], []))).2.1
      = attachSpec (okD (classifySeq noInflate c3bytes [] 7 0)) ∧
    (okD (parseChunks noInflate c3bytes [] 7 0 ([], []))).2.1.map
        (fun c => c.userdata.map (·.text))
      = [[some "u1", some "u2"], [some "u3"]] := by
  refine ⟨by decide, ?_, by decide⟩
  obtain ⟨items, hcs, hat⟩ := parseChunks_userdata_attachment noInflate c3bytes
    [] 7 0 [] 96 (okD (parseChunks noInflate c3bytes [] 7 0 ([], []))).2.1
    [0x2019] (by decide)
  have hitems : items = okD (classifySeq noInflate c3bytes [] 7 0) := by
    rw [hcs]; rfl
  exact hitems ▸ hat

/-! ## C9 — emptiness is decided by width alone -/

/-- The packing-eligibility predicate of the `uniquecells` filter
(`c.width && layers[c.layeridx].userdata`), as a pure Boolean: nonzero
width on a layer that carries userdata.  The height field is not consulted. -/
def submittedToPack (doc : ParsedDoc) (c : CelData) : Bool :=
  c.width != 0 &&
    (match (layersOf doc).get? c.layeridx with
     | some l => !l.userdata.isEmpty
     | none => false)

/-- C9: (a) when every nonzero-width candidate has an in-range layer index,
the `uniquecells` pass succeeds and keeps exactly the candidates with
nonzero width on a userdata-carrying layer (height is not examined);
(b) the eligibility of a cel is unchanged by replacing its height — in
particular a nonzero-width zero-height cel is submitted to packing whenever
its layer carries userdata; (c) an emitted animation record is six zeros
precisely when the cel's width is 0 — a nonzero-width zero-height cel gets
a non-zero record. -/
theorem reducer_empty_is_width_zero (crcF : List Nat → Nat) (doc : ParsedDoc)
    (celto : Nat → Option (Int × Int)) (l : List Nat) (c : CelData)
    (hh : Nat) (v : List Int) :
    ((∀ i ∈ l, ((cellsOf doc).getD i (emptyCel 0)).width ≠ 0 →
        ((cellsOf doc).getD i (emptyCel 0)).layeridx < (layersOf doc).length) →
      uniquecellIdxs crcF doc l =
        .ok (l.filter (fun i =>
          submittedToPack doc ((cellsOf doc).getD i (emptyCel 0))))) ∧
    (submittedToPack doc { c with height := hh } = submittedToPack doc c) ∧
    (c.width < 65536 → record6 crcF doc celto c = .ok v →
      (v = [0, 0, 0, 0, 0, 0] ↔ c.width = 0)) := by
  refine ⟨?_, rfl, ?_⟩
  · intro hb
    induction l with
    | nil => rfl
    | cons i rest ih =>
      have hbr : ∀ j ∈ rest, ((cellsOf doc).getD j (emptyCel 0)).width ≠ 0 →
          ((cellsOf doc).getD j (emptyCel 0)).layeridx < (layersOf doc).length :=
        fun j hj => hb j (List.mem_cons_of_mem i hj)
      have hrec := ih hbr
      show (if ((cellsOf doc).getD i (emptyCel 0)).width = 0 then
          uniquecellIdxs crcF doc rest
        else
          match (layersOf doc).get? ((cellsOf doc).getD i (emptyCel 0)).layeridx with
          | none => .error .typeErr
          | some l => do
            let r ← uniquecellIdxs crcF doc rest
            return if !l.userdata.isEmpty then i :: r else r) = _
      by_cases hw : ((cellsOf doc).getD i (emptyCel 0)).width = 0
      · rw [if_pos hw, hrec]
        have hs : submittedToPack doc ((cellsOf doc).getD i (emptyCel 0)) = false := by
          unfold submittedToPack
          rw [hw]
          simp
        rw [List.filter_cons, hs]
        simp
      · rw [if_neg hw]
        have hlt := hb i (List.mem_cons_self i rest) hw
        cases hla : (layersOf doc).get? ((cellsOf doc).getD i (emptyCel 0)).layeridx with
        | none =>
          have := List.get?_eq_none.mp hla
          omega
        | some la =>
          have hs : submittedToPack doc ((cellsOf doc).getD i (emptyCel 0))
              = !la.userdata.isEmpty := by
            unfold submittedToPack
            rw [hla]
            cases hq : la.userdata.isEmpty with
            | false =>
              simp only [hq, Bool.not_false, Bool.and_true]
              simpa using hw
            | true => simp [hq]
          rw [hrec, List.filter_cons, hs]
          simp only [bind, Except.bind, pure, Except.pure]
  · intro hwlt hok
    unfold record6 at hok
    cases hf : firstIdxOf crcF doc (crcF c.pixels) with
    | none => simp only [hf] at hok; exact absurd hok (by simp)
    | some u =>
      simp only [hf] at hok
      by_cases hw : c.width = 0
      · rw [if_pos hw] at hok
        simp only [Except.ok.injEq] at hok
        subst hok
        simp [hw]
      · rw [if_neg hw] at hok
        cases hz : celto u with
        | none => simp only [hz] at hok; exact absurd hok (by simp)
        | some zz =>
          obtain ⟨zx, zy⟩ := zz
          simp only [hz] at hok
          simp only [Except.ok.injEq] at hok
          subst hok
          simp only [hw, iff_false]
          intro hv
          have h3 : toInt16 (c.width : Int) = 0 := by
            have := congrArg (fun l => l.getD 2 (1 : Int)) hv
            simpa using this
          unfold toInt16 at h3
          omega

/-- A concrete layer chunk carrying one userdata record (C9 witness). -/
def c9layer : AChunk :=
  ⟨.layer { visible := true, editable := false, lock := false,
            background := false, prefer_linked := false, collapsed := false,
            reference := false, layer_type := 0, child_level := 0,
            default_width := 0, default_height := 0, blend_mode := 0,
            opacity := 255, name := "l" },
   [⟨some "t", none⟩]⟩

/-- A concrete nonzero-width, zero-height cel (C9 witness). -/
def c9cel : CelData := ⟨0, 3, 4, 255, 0, 0, 2, 0, [1, 2, 3]⟩

/-- A concrete one-frame document holding them (C9 witness). -/
def c9doc : ParsedDoc :=
  ⟨{ (default : AseHeader) with frame_count := 1 },
   [⟨100, [c9layer, ⟨.cel c9cel, []⟩]⟩], []⟩

/-- Witness for C9: in `c9doc` the single 2-wide, 0-high cel passes the
`uniquecells` filter (it is submitted to packing), its eligibility is
height-independent, and its emitted record `[3, 4, 2, 0, 5, 6]` is not six
zeros. -/
theorem reducer_empty_is_width_zero_witness :
    uniquecellIdxs crc0 c9doc (addedIdxs crc0 c9doc) = .ok [0] ∧
    submittedToPack c9doc { c9cel with height := 7 } = submittedToPack c9doc c9cel ∧
    record6 crc0 c9doc (fun _ => some (5, 6)) c9cel = .ok [3, 4, 2, 0, 5, 6] ∧
    (([3, 4, 2, 0, 5, 6] : List Int) = [0, 0, 0, 0, 0, 0] ↔ c9cel.width = 0) ∧
    c9cel.width ≠ 0 := by
  have h := reducer_empty_is_width_zero crc0 c9doc (fun _ => some (5, 6))
    (addedIdxs crc0 c9doc) c9cel 7 [3, 4, 2, 0, 5, 6]
  refine ⟨?_, h.2.1, by decide, h.2.2 (by decide) (by decide), by decide⟩
  have h1 := h.1 (by decide)
  rw [h1]
  rfl

/-! ## C8 — flag vocabulary and per-layer bitmask -/

/-- Membership in the first-seen dedup pass is membership in the source
list (given membership in the accumulator also counts). -/
theorem mem_firstSeen_foldl :
    ∀ (l : List String) (acc : List String) (x : String),
      (x ∈ l.foldl (fun acc x => if x ∈ acc then acc else acc ++ [x]) acc) ↔
        x ∈ acc ∨ x ∈ l
  | [], acc, x => by simp
  | y :: ys, acc, x => by
    rw [List.foldl_cons, mem_firstSeen_foldl ys]
    by_cases hy : y ∈ acc
    · simp only [if_pos hy, List.mem_cons]
      constructor
      · rintro (h | h) <;> tauto
      · rintro (h | h | h)
        · tauto
        · subst h; tauto
        · tauto
    · simp only [if_neg hy, List.mem_append, List.mem_singleton, List.mem_cons]
      tauto

/-- The first-seen dedup pass keeps the list duplicate-free. -/
theorem nodup_firstSeen_foldl :
    ∀ (l : List String) (acc : List String), acc.Nodup →
      (l.foldl (fun acc x => if x ∈ acc then acc else acc ++ [x]) acc).Nodup
  | [], acc, h => h
  | y :: ys, acc, h => by
    rw [List.foldl_cons]
    by_cases hy : y ∈ acc
    · rw [if_pos hy]
      exact nodup_firstSeen_foldl ys acc h
    · rw [if_neg hy]
      exact nodup_firstSeen_foldl ys (acc ++ [y])
        (by simp [List.nodup_append, h, hy])

/-- Bit `i` of the `computeFlags` fold is set exactly when some token of the
list maps to `i` in the vocabulary (or it was already set). -/
theorem computeFlags_fold_testBit (flags : List (String × Nat)) (i : Nat) :
    ∀ (toks : List String) (acc : Nat),
      ((toks.foldl (fun ret u =>
        match flagsLookup flags u with
        | some j => ret ||| (1 <<< j)
        | none => ret) acc).testBit i = true ↔
      (acc.testBit i = true ∨ ∃ u ∈ toks, flagsLookup flags u = some i))
  | [], acc => by simp
  | u :: us, acc => by
    rw [List.foldl_cons, computeFlags_fold_testBit flags i us]
    cases hu : flagsLookup flags u with
    | none =>
      simp only [List.mem_cons]
      constructor
      · rintro (h | ⟨w, hw, hl⟩)
        · tauto
        · exact Or.inr ⟨w, Or.inr hw, hl⟩
      · rintro (h | ⟨w, hw | hw, hl⟩)
        · tauto
        · subst hw; rw [hu] at hl; cases hl
        · exact Or.inr ⟨w, hw, hl⟩
    | some j =>
      simp only [List.mem_cons, Nat.testBit_or]
      have h1 : ((1 <<< j).testBit i = true) ↔ i = j := by
        rw [Nat.testBit_shiftLeft]
        simp [Nat.testBit_one_eq_true_iff_self_eq_zero]
        omega
      constructor
      · rintro (h | ⟨w, hw, hl⟩)
        · rcases Bool.or_eq_true_iff.mp h with h | h
          · tauto
          · exact Or.inr ⟨u, Or.inl rfl, by rw [hu, h1.mp h]⟩
        · exact Or.inr ⟨w, Or.inr hw, hl⟩
      · rintro (h | ⟨w, hw | hw, hl⟩)
        · exact Or.inl (Bool.or_eq_true_iff.mpr (Or.inl h))
        · subst hw
          rw [hu] at hl
          injection hl with hji
          exact Or.inl (Bool.or_eq_true_iff.mpr (Or.inr (h1.mpr hji.symm)))
        · exact Or.inr ⟨w, hw, hl⟩

/-- C8 (amended): the flag vocabulary assigns the consecutive bit indices
`0, 1, …` in order to the deduplicated non-empty tokens (the empty token is
never in the vocabulary — `.filter(e => e)` drops it), the vocabulary is
duplicate-free, and a used layer's bitmask has bit `i` set exactly when one
of its whitespace-trimmed tokens is in the vocabulary at index `i` —
tokens absent from the vocabulary are silently ignored. -/
theorem flags_vocabulary_and_bitmask (doc : ParsedDoc) (n : String) (i : Nat) :
    (flagsOf doc).map Prod.snd = List.range (animflagsOf doc).length ∧
    "" ∉ animflagsOf doc ∧
    (animflagsOf doc).Nodup ∧
    ((computeFlags (flagsOf doc) n).testBit i = true ↔
      ∃ u ∈ (jsSplit n (Char.ofNat 38)).map jsTrim,
        flagsLookup (flagsOf doc) u = some i) := by
  refine ⟨?_, ?_, ?_, ?_⟩
  · unfold flagsOf
    rw [List.map_map, ← List.enum_map_fst (animflagsOf doc)]
    rfl
  · intro hmem
    unfold animflagsOf firstSeen at hmem
    rw [mem_firstSeen_foldl] at hmem
    rcases hmem with h | h
    · cases h
    · exact absurd (List.of_mem_filter h) (by simp)
  · exact nodup_firstSeen_foldl _ [] List.nodup_nil
  · unfold computeFlags
    rw [computeFlags_fold_testBit]
    simp

/-- C8 counterexample input: one used layer whose attached text is
`"a&&b"`, which splits into the tokens `"a"`, `""`, `"b"`. -/
def c8bytes : List Nat :=
  mkHeader 1 8 8 ++
  mkFrame 100 [
    mkChunk 0x2004 (mkLayerPayload 1 "l"),
    mkChunk 0x2020 (mkUserDataPayload "a&&b"),
    mkChunk 0x2018 (mkTagsPayload [])
  ]

/-- C8 counterexample: splitting the used layer's text `"a&&b"` on the
ampersand yields the three tokens `"a"`, `""`, `"b"`, yet the emitted
vocabulary is `{a ↦ 0, b ↦ 1}`: the empty token — a distinct token obtained
by the claimed splitting — receives no bit index at all and `"b"` gets
index 1, not 2; the layer's bitmask is 3, not the 7 the claimed mapping
would give. -/
theorem flags_drop_empty_token :
    jsSplit "a&&b" (Char.ofNat 38) = ["a", "", "b"] ∧
    (parseFile noInflate c8bytes).map
        (fun d => (usedlayersOf d).map (fun l => l.userdata.map (·.text)))
      = (.ok [[some "a&&b"]]
          : Except Err (List (List (Option String)))) ∧
    (doGeneration crc0 packNone noInflate c8bytes false).map (fun r => r.flags)
      = .ok [("a", 0), ("b", 1)] ∧
    flagsLookup (okD (doGeneration crc0 packNone noInflate c8bytes false)).flags ""
      = none ∧
    flagsLookup (okD (doGeneration crc0 packNone noInflate c8bytes false)).flags "b"
      = some 1 ∧
    (doGeneration crc0 packNone noInflate c8bytes false).map
        (fun r => r.layers_props) = .ok [3] := by
  refine ⟨by decide, by decide, by decide, by decide, by decide, by decide⟩

/-! ## C6 — which Tags chunk feeds the tag table -/

/-- Destructuring a successful reduction: every output field of the result
in terms of the pipeline stages. -/
theorem doGenerationDoc_ok_elim (crcF : List Nat → Nat)
    (packF : List CelData → PackOut) (doc : ParsedDoc) (ad : Bool)
    (r : GenResult) (h : doGenerationDoc crcF packF doc ad = .ok r) :
    ∃ uniq seq meta ts,
      uniquecellIdxs crcF doc (addedIdxs crcF doc) = .ok uniq ∧
      layerLoop crcF doc
        (celtoitemOf uniq
          (packF (uniq.map (fun i => (cellsOf doc).getD i (emptyCel 0)))))
        (flagsOf doc) ad (usedPairsOf doc) = .ok (seq, meta) ∧
      firstTags doc = some ts ∧
      r = { flags := flagsOf doc
            layers_props := meta
            anims := ts.map (fun t =>
              (t.name, (t.tagFrom, t.tagTo, t.loop_type, t.rep)))
            animArr := seq.take
                (6 * (usedlayersOf doc).length * doc.header.frame_count) ++
              List.replicate
                ((6 * (usedlayersOf doc).length * doc.header.frame_count)
                  - seq.length) 0
            extent := (doc.header.width, doc.header.height)
            frame_count := doc.header.frame_count
            frame_durations := doc.frames.map (·.duration) } := by
  unfold doGenerationDoc at h
  simp only [bind, Except.bind] at h
  cases hu : uniquecellIdxs crcF doc (addedIdxs crcF doc) with
  | error e => simp only [hu] at h; exact absurd h (by simp)
  | ok uniq =>
    simp only [hu] at h
    cases hl : layerLoop crcF doc
        (celtoitemOf uniq
          (packF (uniq.map (fun i => (cellsOf doc).getD i (emptyCel 0)))))
        (flagsOf doc) ad (usedPairsOf doc) with
    | error e => simp only [hl] at h; exact absurd h (by simp)
    | ok sm =>
      obtain ⟨seq, meta⟩ := sm
      simp only [hl] at h
      cases hft : firstTags doc with
      | none => simp only [hft] at h; exact absurd h (by simp)
      | some ts =>
        simp only [hft, pure, Except.pure, Except.ok.injEq] at h
        exact ⟨uniq, seq, meta, ts, rfl, hl, rfl, h.symm⟩

/-- `findSome?` finds the FIRST element with a value: there is a position
`k` holding the found value with every earlier position mapped to `none`. -/
theorem findSome?_first {α β : Type _} (f : α → Option β) :
    ∀ (l : List α) (b : β), l.findSome? f = some b →
      ∃ k x, l.get? k = some x ∧ f x = some b ∧
        ∀ j, j < k → ∀ y, l.get? j = some y → f y = none
  | [], b, h => by simp at h
  | a :: as, b, h => by
    rw [List.findSome?_cons] at h
    cases hf : f a with
    | some c =>
      rw [hf] at h
      refine ⟨0, a, rfl, ?_, by omega⟩
      rw [hf]
      exact h
    | none =>
      rw [hf] at h
      obtain ⟨k, x, hget, hfx, hall⟩ := findSome?_first f as b h
      refine ⟨k + 1, x, by simpa using hget, hfx, ?_⟩
      intro j hj y hy
      cases j with
      | zero =>
        simp only [List.get?] at hy
        injection hy with hy
        subst hy
        exact hf
      | succ j =>
        exact hall j (by omega) y (by simpa using hy)

/-- C6 (amended): the emitted tag table is built from the EARLIEST Tags
chunk in decode order — whenever the reduction succeeds there is a Tags
chunk at some position of the flattened chunk list with no Tags chunk
before it, and `anims` is that chunk's tag list (name, from, to, loop,
repeat); a later duplicate Tags chunk is ignored. -/
theorem anims_from_first_tags (crcF : List Nat → Nat)
    (packF : List CelData → PackOut) (doc : ParsedDoc) (ad : Bool)
    (r : GenResult) (hok : doGenerationDoc crcF packF doc ad = .ok r) :
    ∃ k c ts,
      (doc.frames.flatMap (fun f => f.chunks)).get? k = some c ∧
      tagsOf c = some ts ∧
      (∀ j, j < k → ∀ y,
        (doc.frames.flatMap (fun f => f.chunks)).get? j = some y →
          tagsOf y = none) ∧
      r.anims = ts.map (fun t =>
        (t.name, (t.tagFrom, t.tagTo, t.loop_type, t.rep))) := by
  obtain ⟨uniq, seq, meta, ts, -, -, hft, hr⟩ :=
    doGenerationDoc_ok_elim crcF packF doc ad r hok
  unfold firstTags at hft
  obtain ⟨k, c, hget, hfx, hall⟩ := findSome?_first tagsOf _ ts hft
  exact ⟨k, c, ts, hget, hfx, hall, by rw [hr]⟩

/-- C6 counterexample input: one document with TWO Tags chunks — the first
maps tag `a` to (0, 1, loop 0, repeat 0), the later one maps `a` to
(2, 3, loop 1, repeat 5). -/
def c6bytes : List Nat :=
  mkHeader 1 8 8 ++
  mkFrame 100 [
    mkChunk 0x2004 (mkLayerPayload 1 "l"),
    mkChunk 0x2020 (mkUserDataPayload "x"),
    mkChunk 0x2018 (mkTagsPayload [mkTagRecord 0 1 0 0 "a"]),
    mkChunk 0x2018 (mkTagsPayload [mkTagRecord 2 3 1 5 "a"])
  ]

/-- C6 counterexample: the decoded document carries both Tags chunks, yet
the emitted `anims` table equals the FIRST chunk's tag list — tag `a` maps
to (0, 1, 0, 0), not the latest chunk's (2, 3, 1, 5). -/
theorem anims_first_tags_counterexample :
    (parseFile noInflate c6bytes).map
        (fun d => (d.frames.flatMap (fun f => f.chunks)).filterMap tagsOf)
      = (.ok [[⟨0, 1, 0, 0, [10, 20, 30], "a"⟩],
              [⟨2, 3, 1, 5, [10, 20, 30], "a"⟩]]
          : Except Err (List (List TagData))) ∧
    (doGeneration crc0 packNone noInflate c6bytes false).map (fun r => r.anims)
      = (.ok [("a", (0, 1, 0, 0))]
          : Except Err (List (String × (Int × Int × Nat × Int)))) ∧
    lookupAnim (okD (doGeneration crc0 packNone noInflate c6bytes false)).anims "a"
      = some (0, 1, 0, 0) ∧
    ((0 : Int), (1 : Int), (0 : Nat), (0 : Int)) ≠ ((2 : Int), 3, 1, 5) := by
  refine ⟨by decide, by decide, by decide, by decide⟩

/-- Concrete document for the C6 witness: a used layer and a single Tags
chunk. -/
def c6witnessDoc : ParsedDoc :=
  ⟨{ (default : AseHeader) with frame_count := 1 },
   [⟨100, [c9layer, ⟨.tags [⟨0, 1, 0, 0, [10, 20, 30], "walk"⟩], []⟩]⟩], []⟩

/-- Witness for C6: on `c6witnessDoc` the reduction succeeds and
`anims_from_first_tags` produces the position of the first Tags chunk
(index 1) and the emitted table. -/
theorem anims_from_first_tags_witness :
    doGenerationDoc crc0 packNone c6witnessDoc false
      = .ok (okD (doGenerationDoc crc0 packNone c6witnessDoc false)) ∧
    (∃ k c ts,
      (c6witnessDoc.frames.flatMap (fun f => f.chunks)).get? k = some c ∧
      tagsOf c = some ts ∧
      (∀ j, j < k → ∀ y,
        (c6witnessDoc.frames.flatMap (fun f => f.chunks)).get? j = some y →
          tagsOf y = none) ∧
      (okD (doGenerationDoc crc0 packNone c6witnessDoc false)).anims
        = ts.map (fun t => (t.name, (t.tagFrom, t.tagTo, t.loop_type, t.rep)))) :=
  ⟨by decide,
    anims_from_first_tags crc0 packNone c6witnessDoc false
      (okD (doGenerationDoc crc0 packNone c6witnessDoc false)) (by decide)⟩

/-! ## C4 — which layers are enumerated, and which participate -/

/-- A successful layer loop pushes exactly one `computeFlags` mask per used
layer, in order, taken from the layer's first userdata record's text. -/
theorem layerLoop_meta (crcF : List Nat → Nat) (doc : ParsedDoc)
    (celto : Nat → Option (Int × Int)) (flags : List (String × Nat))
    (ad : Bool) :
    ∀ (pairs : List (Nat × AChunk)) (seq : List Int) (meta : List Nat),
      layerLoop crcF doc celto flags ad pairs = .ok (seq, meta) →
      meta = pairs.map (fun p =>
        computeFlags flags (((p.2.userdata.head?).bind (·.text)).getD ""))
  | [], seq, meta, h => by
    unfold layerLoop at h
    simp only [Except.ok.injEq, Prod.mk.injEq] at h
    simp [← h.2]
  | (lid, l) :: rest, seq, meta, h => by
    unfold layerLoop at h
    simp only [bind, Except.bind] at h
    cases hr : emitLayerRecs crcF doc celto ad lid with
    | error e => simp only [hr] at h; exact absurd h (by simp)
    | ok recs =>
      simp only [hr] at h
      cases hhd : l.userdata.head? with
      | none => simp only [hhd] at h; exact absurd h (by simp)
      | some u =>
        simp only [hhd] at h
        cases htx : u.text with
        | none => simp only [htx] at h; exact absurd h (by simp)
        | some t =>
          simp only [htx, pure, Except.pure] at h
          cases hrec : layerLoop crcF doc celto flags ad rest with
          | error e => simp only [hrec] at h; exact absurd h (by simp)
          | ok sm =>
            obtain ⟨rs, ms⟩ := sm
            simp only [hrec, Except.ok.injEq, Prod.mk.injEq] at h
            have ih := layerLoop_meta crcF doc celto flags ad rest rs ms hrec
            rw [← h.2, ih]
            simp [hhd, htx]

/-- Length of an `enum`-filter on the second component. -/
theorem length_enumFrom_filter_snd {α : Type _} (q : α → Bool) :
    ∀ (l : List α) (n : Nat),
      ((List.enumFrom n l).filter (fun p => q p.2)).length
        = (l.filter q).length
  | [], _ => rfl
  | a :: as, n => by
    rw [List.enumFrom_cons, List.filter_cons, List.filter_cons]
    cases hq : q a <;>
      simp [hq, length_enumFrom_filter_snd q as (n + 1)]

/-- C4 (amended): layers are enumerated from the Layer chunks of ALL frames
in document order (`layersOf`), and a layer contributes a `layers_props`
entry exactly when it carries at least one attached userdata record: the
emitted list is one `computeFlags` mask per userdata-carrying layer in
declaration order — layers without userdata (whatever cels they own)
contribute nothing. -/
theorem layers_props_iff_userdata (crcF : List Nat → Nat)
    (packF : List CelData → PackOut) (doc : ParsedDoc) (ad : Bool)
    (r : GenResult) (hok : doGenerationDoc crcF packF doc ad = .ok r) :
    r.layers_props = (usedPairsOf doc).map (fun p =>
      computeFlags (flagsOf doc) (((p.2.userdata.head?).bind (·.text)).getD "")) ∧
    usedPairsOf doc
      = (layersOf doc).enum.filter (fun p => !p.2.userdata.isEmpty) ∧
    r.layers_props.length
      = ((layersOf doc).filter (fun l => !l.userdata.isEmpty)).length := by
  obtain ⟨uniq, seq, meta, ts, -, hl, -, hr⟩ :=
    doGenerationDoc_ok_elim crcF packF doc ad r hok
  have hm := layerLoop_meta crcF doc _ (flagsOf doc) ad (usedPairsOf doc)
    seq meta hl
  refine ⟨by rw [hr]; exact hm, rfl, ?_⟩
  rw [hr]
  show meta.length = _
  rw [hm, List.length_map]
  unfold usedPairsOf
  rw [show (layersOf doc).enum = List.enumFrom 0 (layersOf doc) from rfl]
  exact length_enumFrom_filter_snd (fun l => !l.userdata.isEmpty)
    (layersOf doc) 0

/-- C4 counterexample input: frame 0 holds no Layer chunk at all; the only
Layer chunk (with attached userdata `"x"`) sits in frame 1. -/
def c4bytes : List Nat :=
  mkHeader 2 8 8 ++
  mkFrame 100 [] ++
  mkFrame 50 [
    mkChunk 0x2004 (mkLayerPayload 1 "late"),
    mkChunk 0x2020 (mkUserDataPayload "x"),
    mkChunk 0x2018 (mkTagsPayload [])
  ]

/-- C4 counterexample: in the decoded document frame 0 contains zero Layer
chunks, yet the reducer enumerates one layer (from frame 1) and emits one
`layers_props` entry for it — layers are NOT enumerated from frame 0
alone. -/
theorem layers_enumerated_beyond_frame0 :
    (parseFile noInflate c4bytes).map
        (fun d => ((d.frames.getD 0 ⟨0, []⟩).chunks.filter isLayerChunk).length)
      = (.ok 0 : Except Err Nat) ∧
    (parseFile noInflate c4bytes).map (fun d => (layersOf d).length)
      = (.ok 1 : Except Err Nat) ∧
    (doGeneration crc0 packNone noInflate c4bytes false).map
        (fun r => r.layers_props)
      = (.ok [1] : Except Err (List Nat)) := by
  refine ⟨by decide, by decide, by decide⟩

/-- A concrete layer chunk without userdata (C4 witness). -/
def plainLayer : AChunk :=
  ⟨.layer { visible := true, editable := false, lock := false,
            background := false, prefer_linked := false, collapsed := false,
            reference := false, layer_type := 0, child_level := 0,
            default_width := 0, default_height := 0, blend_mode := 0,
            opacity := 255, name := "plain" }, []⟩

/-- Concrete document for the C4 witness: layer 0 carries userdata, layer 1
does not but owns a real cel; one Tags chunk. -/
def c4witnessDoc : ParsedDoc :=
  ⟨{ (default : AseHeader) with frame_count := 1 },
   [⟨100, [c9layer, plainLayer,
           ⟨.cel ⟨1, 0, 0, 255, 0, 0, 2, 2, [1, 2, 3]⟩, []⟩,
           ⟨.tags [], []⟩]⟩], []⟩

/-- Witness for C4: on `c4witnessDoc` (two layers, only the first carrying
userdata, the second owning a real cel) the reduction emits exactly one
`layers_props` entry. -/
theorem layers_props_iff_userdata_witness :
    doGenerationDoc crc0 packNone c4witnessDoc true
      = .ok (okD (doGenerationDoc crc0 packNone c4witnessDoc true)) ∧
    (okD (doGenerationDoc crc0 packNone c4witnessDoc true)).layers_props
      = (usedPairsOf c4witnessDoc).map (fun p =>
        computeFlags (flagsOf c4witnessDoc)
          (((p.2.userdata.head?).bind (·.text)).getD "")) ∧
    (okD (doGenerationDoc crc0 packNone c4witnessDoc true)).layers_props.length
      = ((layersOf c4witnessDoc).filter (fun l => !l.userdata.isEmpty)).length ∧
    (layersOf c4witnessDoc).length = 2 := by
  have h := layers_props_iff_userdata crc0 packNone c4witnessDoc true
    (okD (doGenerationDoc crc0 packNone c4witnessDoc true)) (by decide)
  exact ⟨by decide, h.1, h.2.2, by decide⟩

/-! ## C1 — animation-record emission layout -/

/-- In a duplicate-free list of naturals, filtering for equality with `lid`
gives `[lid]` or nothing. -/
theorem filter_beq_of_nodup (lid : Nat) :
    ∀ (l : List Nat), l.Nodup →
      l.filter (fun i => i == lid) = if lid ∈ l then [lid] else []
  | [], _ => by simp
  | a :: as, h => by
    obtain ⟨ha, has⟩ := List.nodup_cons.mp h
    have ih := filter_beq_of_nodup lid as has
    by_cases hae : a = lid
    · subst hae
      rw [List.filter_cons, ih, if_neg ha]
      simp
    · have h1 : (a == lid) = false := by simpa using hae
      have h2 : lid ≠ a := fun hx => hae hx.symm
      rw [List.filter_cons, h1, ih]
      by_cases hm : lid ∈ as
      · simp [hm]
      · simp [hm, h2]

/-- `find?` returns the head of the filtered list. -/
theorem find?_eq_head?_filter {α : Type _} (p : α → Bool) :
    ∀ (l : List α), l.find? p = (l.filter p).head?
  | [] => rfl
  | a :: as => by
    rw [List.find?_cons, List.filter_cons]
    cases hp : p a with
    | true => simp
    | false => simpa using find?_eq_head?_filter p as

/-- Every used-layer id is a valid index into the layer list. -/
theorem layerid_lt_length (doc : ParsedDoc) :
    ∀ lid ∈ layeridOf doc, lid < (layersOf doc).length := by
  intro lid hmem
  unfold layeridOf usedPairsOf at hmem
  obtain ⟨⟨i, l⟩, hp, hfst⟩ := List.mem_map.mp hmem
  have hpe := List.mem_filter.mp hp
  have := List.mem_enumFrom hpe.1
  subst hfst
  omega

/-- `flatMap` congruence over the members of the list. -/
theorem flatMap_congr_mem {α β : Type _} :
    ∀ (l : List α) (f g : α → List β), (∀ x ∈ l, f x = g x) →
      l.flatMap f = l.flatMap g
  | [], _, _, _ => rfl
  | a :: as, f, g, h => by
    rw [List.flatMap_cons, List.flatMap_cons, h a (by simp),
      flatMap_congr_mem as f g (fun x hx => h x (by simp [hx]))]

/-- A successfully emitted record is `recordSpec` of the cel, and is six
values long. -/
theorem record6_ok (crcF : List Nat → Nat) (doc : ParsedDoc)
    (celto : Nat → Option (Int × Int)) (cel : CelData) (v : List Int)
    (h : record6 crcF doc celto cel = .ok v) :
    v = recordSpec crcF doc celto cel ∧ v.length = 6 := by
  unfold record6 at h
  cases hf : firstIdxOf crcF doc (crcF cel.pixels) with
  | none => simp only [hf] at h; exact absurd h (by simp)
  | some u =>
    simp only [hf] at h
    by_cases hw : cel.width = 0
    · rw [if_pos hw] at h
      simp only [Except.ok.injEq] at h
      subst h
      unfold recordSpec
      rw [if_pos hw]
      constructor <;> simp
    · rw [if_neg hw] at h
      cases hz : celto u with
      | none => simp only [hz] at h; exact absurd h (by simp)
      | some zz =>
        obtain ⟨zx, zy⟩ := zz
        simp only [hz] at h
        simp only [Except.ok.injEq] at h
        subst h
        unfold recordSpec
        rw [if_neg hw, hf]
        simp only [Option.bind, hz]
        constructor <;> simp

/-- `recordSpec` always has six values. -/
theorem recordSpec_length (crcF : List Nat → Nat) (doc : ParsedDoc)
    (celto : Nat → Option (Int × Int)) (cel : CelData) :
    (recordSpec crcF doc celto cel).length = 6 := by
  unfold recordSpec
  by_cases hw : cel.width = 0
  · rw [if_pos hw]
    rfl
  · rw [if_neg hw]
    cases (firstIdxOf crcF doc (crcF cel.pixels)).bind celto with
    | none => rfl
    | some zz => obtain ⟨zx, zy⟩ := zz; rfl

/-- A successful `mapM` whose per-element results are described by `g`
produces `map g`. -/
theorem mapM_ok_map {α β : Type _} (f : α → Except Err β) (g : α → β)
    (hfg : ∀ x v, f x = .ok v → v = g x) :
    ∀ (l : List α) (ys : List β), l.mapM f = .ok ys → ys = l.map g
  | [], ys, h => by
    rw [List.mapM_nil] at h
    simp only [pure, Except.pure, Except.ok.injEq] at h
    simp [← h]
  | a :: as, ys, h => by
    rw [List.mapM_cons] at h
    simp only [bind, Except.bind] at h
    cases hfa : f a with
    | error e => simp only [hfa] at h; exact absurd h (by simp)
    | ok v =>
      simp only [hfa] at h
      cases hrest : as.mapM f with
      | error e => simp only [hrest] at h; exact absurd h (by simp)
      | ok vs =>
        simp only [hrest, pure, Except.pure, Except.ok.injEq] at h
        rw [List.map_cons, ← h, hfg a v hfa,
          mapM_ok_map f g hfg as vs hrest]

/-- Within one frame, filtering the real-plus-placeholder cels for a used
layer id yields exactly "that pairing's cel": the frame's single real cel
on that layer, or the synthesized placeholder. -/
theorem cels_filter_frame (doc : ParsedDoc) (lid : Nat) (f : AseFrame)
    (hmem : lid ∈ layeridOf doc) (hlt : lid < (layersOf doc).length)
    (h1 : ((realCels f).filter (fun c => c.layeridx == lid)).length ≤ 1) :
    (realCels f ++ placeholdersFor doc f).filter (fun c => c.layeridx == lid)
      = [celForPair lid f] := by
  rw [List.filter_append]
  have hph : (placeholdersFor doc f).filter (fun c => c.layeridx == lid)
      = if ((realCels f).all (fun r => r.layeridx != lid))
            && (layeridOf doc).contains lid
        then [emptyCel lid] else [] := by
    unfold placeholdersFor
    rw [List.filter_map]
    have hcomp : ((fun c => c.layeridx == lid) ∘ emptyCel)
        = (fun i => i == lid) := rfl
    rw [hcomp,
      filter_beq_of_nodup lid _ (List.Nodup.filter _ (List.nodup_range _))]
    by_cases hin : lid ∈ (List.range (layersOf doc).length).filter
        (fun i => ((realCels f).all (fun r => r.layeridx != i))
          && (layeridOf doc).contains i)
    · rw [if_pos hin, if_pos (List.mem_filter.mp hin).2]
      rfl
    · rw [if_neg hin, if_neg (fun hc =>
        hin (List.mem_filter.mpr ⟨List.mem_range.mpr hlt, hc⟩))]
      rfl
  cases hrf : (realCels f).filter (fun c => c.layeridx == lid) with
  | nil =>
    rw [hph]
    have hall : (realCels f).all (fun r => r.layeridx != lid) = true := by
      rw [List.all_eq_true]
      intro r hr
      have := List.filter_eq_nil_iff.mp hrf r hr
      simpa using this
    have hcont : (layeridOf doc).contains lid = true :=
      List.elem_eq_true_of_mem hmem
    rw [hall, hcont]
    unfold celForPair
    rw [find?_eq_head?_filter, hrf]
    rfl
  | cons c rest =>
    cases rest with
    | cons d ds => rw [hrf] at h1; simp at h1
    | nil =>
      rw [hph]
      have hcmem : c ∈ (realCels f).filter (fun x => x.layeridx == lid) := by
        rw [hrf]; simp
      have hcr := List.mem_filter.mp hcmem
      have hall : (realCels f).all (fun r => r.layeridx != lid) = false := by
        rw [List.all_eq_false]
        exact ⟨c, hcr.1, by simpa using hcr.2⟩
      rw [hall]
      simp only [Bool.false_and, Bool.false_eq_true, if_false]
      unfold celForPair
      rw [find?_eq_head?_filter, hrf]
      rfl

/-- Length of a `flatMap` whose pieces all have length `k`. -/
theorem flatMap_const_length {α β : Type _} (k : Nat) :
    ∀ (l : List α) (f : α → List β), (∀ x ∈ l, (f x).length = k) →
      (l.flatMap f).length = l.length * k
  | [], _, _ => by simp
  | a :: as, f, h => by
    rw [List.flatMap_cons, List.length_append, h a (by simp),
      flatMap_const_length k as f (fun x hx => h x (by simp [hx])),
      List.length_cons]
    ring

/-- Over a whole document, the cels scanned for one used layer are exactly
one per frame: "that pairing's cel" in frame order. -/
theorem cells_filter_eq_map (doc : ParsedDoc) (lid : Nat)
    (hmem : lid ∈ layeridOf doc)
    (hU : ∀ f ∈ doc.frames,
      ((realCels f).filter (fun c => c.layeridx == lid)).length ≤ 1) :
    (cellsOf doc).filter (fun c => c.layeridx == lid)
      = doc.frames.map (celForPair lid) := by
  unfold cellsOf
  rw [List.filter_flatMap]
  rw [flatMap_congr_mem _ _ (fun f => [celForPair lid f]) (fun f hf =>
    cels_filter_frame doc lid f hmem (layerid_lt_length doc lid hmem)
      (hU f hf))]
  exact Eq.symm (List.map_eq_flatMap (celForPair lid) doc.frames)

/-- With `animdata` requested, a successful layer loop emits, layer-major
in used-layer order, the `recordSpec` values of every scanned cel of that
layer (the cels with that layer's index, in `cells` order). -/
theorem layerLoop_seq (crcF : List Nat → Nat) (doc : ParsedDoc)
    (celto : Nat → Option (Int × Int)) (flags : List (String × Nat)) :
    ∀ (pairs : List (Nat × AChunk)) (seq : List Int) (meta : List Nat),
      layerLoop crcF doc celto flags true pairs = .ok (seq, meta) →
      seq = pairs.flatMap (fun p =>
        ((cellsOf doc).filter (fun c => c.layeridx == p.1)).flatMap
          (recordSpec crcF doc celto))
  | [], seq, meta, h => by
    unfold layerLoop at h
    simp only [Except.ok.injEq, Prod.mk.injEq] at h
    simp [← h.1]
  | (lid, l) :: rest, seq, meta, h => by
    unfold layerLoop at h
    simp only [bind, Except.bind] at h
    cases hr : emitLayerRecs crcF doc celto true lid with
    | error e => simp only [hr] at h; exact absurd h (by simp)
    | ok recs =>
      simp only [hr] at h
      unfold emitLayerRecs at hr
      rw [if_pos rfl] at hr
      cases hmm : ((cellsOf doc).filter (fun c => c.layeridx == lid)).mapM
          (record6 crcF doc celto) with
      | error e => rw [hmm] at hr; exact absurd hr (by simp [Except.map])
      | ok ys =>
        rw [hmm] at hr
        simp only [Except.map, Except.ok.injEq] at hr
        have hys := mapM_ok_map (record6 crcF doc celto)
          (recordSpec crcF doc celto)
          (fun x v hx => (record6_ok crcF doc celto x v hx).1) _ ys hmm
        cases hhd : l.userdata.head? with
        | none => simp only [hhd] at h; exact absurd h (by simp)
        | some u =>
          simp only [hhd] at h
          cases htx : u.text with
          | none => simp only [htx] at h; exact absurd h (by simp)
          | some t =>
            simp only [htx, pure, Except.pure] at h
            cases hrec : layerLoop crcF doc celto flags true rest with
            | error e => simp only [hrec] at h; exact absurd h (by simp)
            | ok sm =>
              obtain ⟨rs, ms⟩ := sm
              simp only [hrec, Except.ok.injEq, Prod.mk.injEq] at h
              have ih := layerLoop_seq crcF doc celto flags rest rs ms hrec
              subst hys
              rw [List.flatMap_cons, ← h.1, ← hr, ih]
              simp [List.flatMap_def]

/-- C1: for every decoded document in which each frame holds at most one
real cel per used layer (the claim's "that pairing's cel"), a successful
reduction with animation data produces a record array of exactly
`6 × (number of used layers) × frame_count` signed 16-bit values, laid out
layer-major, frame-minor, in used-layer declaration order, where the six
values for each (layer, frame) pair come from that pair's own cel — six
zeros when it is empty (width 0), otherwise its own x, y, width, height
followed by the atlas origin of its fingerprint representative. -/
theorem anim_records_layout (crcF : List Nat → Nat)
    (packF : List CelData → PackOut) (doc : ParsedDoc) (r : GenResult)
    (hF : doc.frames.length = doc.header.frame_count)
    (hU : ∀ lid ∈ layeridOf doc, ∀ f ∈ doc.frames,
      ((realCels f).filter (fun c => c.layeridx == lid)).length ≤ 1)
    (hok : doGenerationDoc crcF packF doc true = .ok r) :
    ∃ uniq, uniquecellIdxs crcF doc (addedIdxs crcF doc) = .ok uniq ∧
      r.animArr.length
        = 6 * (usedlayersOf doc).length * doc.header.frame_count ∧
      r.animArr = (layeridOf doc).flatMap (fun lid =>
        (doc.frames.map (celForPair lid)).flatMap
          (recordSpec crcF doc (celtoitemOf uniq
            (packF (uniq.map (fun i => (cellsOf doc).getD i (emptyCel 0))))))) := by
  obtain ⟨uniq, seq, meta, ts, hu, hl, hft, hr⟩ :=
    doGenerationDoc_ok_elim crcF packF doc true r hok
  refine ⟨uniq, hu, ?_⟩
  set celto := celtoitemOf uniq
    (packF (uniq.map (fun i => (cellsOf doc).getD i (emptyCel 0)))) with hcelto
  have hseq := layerLoop_seq crcF doc celto (flagsOf doc) (usedPairsOf doc)
    seq meta hl
  have hseq2 : seq = (layeridOf doc).flatMap (fun lid =>
      (doc.frames.map (celForPair lid)).flatMap (recordSpec crcF doc celto)) := by
    rw [hseq]
    have h1 : (usedPairsOf doc).flatMap (fun p =>
        ((cellsOf doc).filter (fun c => c.layeridx == p.1)).flatMap
          (recordSpec crcF doc celto))
      = (layeridOf doc).flatMap (fun lid =>
        ((cellsOf doc).filter (fun c => c.layeridx == lid)).flatMap
          (recordSpec crcF doc celto)) := by
      unfold layeridOf
      rw [List.flatMap_map]
    rw [h1]
    exact flatMap_congr_mem _ _ _ (fun lid hlid => by
      rw [cells_filter_eq_map doc lid hlid (hU lid hlid)])
  have hslen : seq.length
      = 6 * (usedlayersOf doc).length * doc.header.frame_count := by
    rw [hseq2,
      flatMap_const_length (doc.frames.length * 6) _ _ (fun lid _ => by
        rw [flatMap_const_length 6 _ _ (fun cel _ => recordSpec_length _ _ _ _),
          List.length_map])]
    have hlen : (layeridOf doc).length = (usedlayersOf doc).length := by
      unfold layeridOf usedlayersOf
      rw [List.length_map, List.length_map]
    rw [hlen, hF]
    ring
  have harr : r.animArr = seq := by
    rw [hr]
    show seq.take (6 * (usedlayersOf doc).length * doc.header.frame_count) ++
      List.replicate ((6 * (usedlayersOf doc).length * doc.header.frame_count)
        - seq.length) 0 = seq
    rw [← hslen, List.take_length, Nat.sub_self, List.replicate_zero,
      List.append_nil]
  exact ⟨by rw [harr, hslen], by rw [harr, hseq2]⟩

/-- A second userdata-carrying layer (C1 witness). -/
def c1layer2 : AChunk :=
  ⟨.layer { visible := true, editable := false, lock := false,
            background := false, prefer_linked := false, collapsed := false,
            reference := false, layer_type := 0, child_level := 0,
            default_width := 0, default_height := 0, blend_mode := 0,
            opacity := 255, name := "m" },
   [⟨some "s", none⟩]⟩

/-- Concrete two-frame, two-used-layer document for the C1 witness; layer 1
has a real cel only in frame 0. -/
def c1doc : ParsedDoc :=
  ⟨{ (default : AseHeader) with frame_count := 2 },
   [⟨100, [c9layer, c1layer2,
           ⟨.cel ⟨0, 1, 2, 255, 0, 0, 1, 1, [5, 5, 5, 5]⟩, []⟩,
           ⟨.cel ⟨1, 3, 4, 255, 0, 0, 1, 1, [6, 6, 6, 6]⟩, []⟩,
           ⟨.tags [], []⟩]⟩,
    ⟨50, [⟨.cel ⟨0, 7, 8, 255, 0, 0, 1, 1, [5, 5, 5, 5]⟩, []⟩]⟩], []⟩

/-- Witness for C1 on `c1doc`: 24 = 6 × 2 × 2 values, layer-major — layer
0 gets its own records for both frames ([1,2,1,1,…], [7,8,1,1,…]), then
layer 1 gets its frame-0 record [3,4,1,1,…] and six zeros for its missing
frame-1 cel. -/
theorem anim_records_layout_witness :
    doGenerationDoc crc0 packSeq c1doc true
      = .ok (okD (doGenerationDoc crc0 packSeq c1doc true)) ∧
    (okD (doGenerationDoc crc0 packSeq c1doc true)).animArr
      = [1, 2, 1, 1, 0, 0, 7, 8, 1, 1, 0, 0,
         3, 4, 1, 1, 1, 0, 0, 0, 0, 0, 0, 0] ∧
    (∃ uniq, uniquecellIdxs crc0 c1doc (addedIdxs crc0 c1doc) = .ok uniq ∧
      (okD (doGenerationDoc crc0 packSeq c1doc true)).animArr.length
        = 6 * (usedlayersOf c1doc).length * c1doc.header.frame_count ∧
      (okD (doGenerationDoc crc0 packSeq c1doc true)).animArr
        = (layeridOf c1doc).flatMap (fun lid =>
          (c1doc.frames.map (celForPair lid)).flatMap
            (recordSpec crc0 c1doc (celtoitemOf uniq
              (packSeq (uniq.map (fun i => (cellsOf c1doc).getD i (emptyCel 0)))))))) :=
  ⟨by decide, by decide,
    anim_records_layout crc0 packSeq c1doc
      (okD (doGenerationDoc crc0 packSeq c1doc true))
      (by decide) (by decide) (by decide)⟩
